import Mathlib

/-!
Shallow embedding of errbot's plugin lifecycle engine
(`src/errbot/plugin_manager.py`) and proofs about its activation,
deactivation, ordering, blacklist and reload behaviour.

External collaborators that are not part of the two source files
(`BotPlugin` hooks, templating registration, the web-route registration,
the module loader) are modelled from the spec where needed; each such
definition carries a doc comment saying so.  Machine state is threaded
explicitly: every Python method that can raise is embedded as a function
returning `Except (PluginError × Manager) Manager`, where the error case
carries the state at the moment the exception was raised (Python does not
roll back state on exceptions).
-/

namespace Errbot

/-- Python `sys.version_info[:3]` / version tuples: a triple compared
lexicographically, exactly like Python tuple comparison. -/
abbrev Version := Nat × Nat × Nat

/-- Lexicographic strict comparison of version triples (Python tuple `<`). -/
def verLt (a b : Version) : Bool :=
  if a.1 ≠ b.1 then decide (a.1 < b.1)
  else if a.2.1 ≠ b.2.1 then decide (a.2.1 < b.2.1)
  else decide (a.2.2 < b.2.2)

/-- Renders a version triple the way Python `'%s' % (a, b, c)` renders a tuple. -/
def pyTupleStr (v : Version) : String :=
  "(" ++ toString v.1 ++ ", " ++ toString v.2.1 ++ ", " ++ toString v.2.2 ++ ")"

/-- The slice of `PluginInfo` (the plugin descriptor, parsed by the external
manifest loader) consumed by `plugin_manager.py`: name, declared dependency
names in declaration order, interpreter constraint and host version range. -/
structure PluginInfo where
  name : String
  module : String
  dependencies : List String
  python_version : Option Version
  errbot_minversion : Option Version
  errbot_maxversion : Option Version
  core : Bool
  doc : String
deriving DecidableEq, Repr

/-- Modelled from the spec: the live `BotPlugin` instance (its class is not
under `src/`).  `is_activated` is the activation flag the base class toggles in
its `activate`/`deactivate` hooks; `dependencies` is the attribute written by
`BotPluginManager.activate_plugin` (`none` until first written); `config` is
written by `configure`; `attrs` stands for arbitrary instance attributes set at
runtime (preserved by Python's `plugin.__class__ = new_class` rebinding);
`className`/`module` model `type(plugin).__name__` and `plugin.__module__`.
The three `...Raises` flags model whether the plugin's `activate` hook, the web
route registration on it, or its `callback_connect` hook raises. -/
structure BotPlugin where
  name : String
  module : String
  className : String
  is_activated : Bool
  dependencies : Option (List String)
  config : Option String
  attrs : List (String × String)
  activateRaises : Bool
  routeRaises : Bool
  connectRaises : Bool
deriving DecidableEq, Repr

/-- The mutable state of a `BotPluginManager`: the plugin and descriptor
registries (association lists in Python dict insertion order), the flow
registry (flows have just an activation flag here), the persisted blacklist
and per-plugin configuration store, the callback ordering spec
(`None` is the wildcard, embedded as `Option.none`), and the template path
registry populated by `add_plugin_templates_path`. `botPfx` is `self.bot.prefix`
used in the blacklist notice of `activate_non_started_plugins`. -/
structure Manager where
  plugins : List (String × BotPlugin)
  plugin_infos : List (String × PluginInfo)
  flows : List (String × Bool)
  blacklist : List String
  plugins_callback_order : List (Option String)
  configs : List (String × String)
  template_paths : List String
  botPfx : String
deriving DecidableEq, Repr

/-- Ambient interpreter and host versions: `sys.version_info[:3]`,
`version2tuple(VERSION)` and the `VERSION` string. -/
structure Env where
  sys_version : Version
  errbot_version : Version
  errbot_version_str : String
deriving DecidableEq, Repr

/-- The exceptions raised by the engine, one constructor per raise site.
`render` below maps each to the exact message format of the source.
`notFound` through `failedToStart` are `PluginActivationException`s
(`incompatibleMin`/`incompatibleMax` via its subclass
`IncompatiblePluginException`); `internalActivated`, `hookError`,
`keyError` and `attributeError` are plain Python exceptions;
`outOfFuel` is an artifact of embedding the unbounded recursion with fuel. -/
inductive PluginError where
  | notFound (name : String)
  | alreadyActive (name : String)
  | flowNotFound (name : String)
  | flowAlreadyActive (name : String)
  | flowAlreadyInactive (name : String)
  | circularDependency (chain : List String)
  | unknownDependency (dep : String)
  | incompatibleMin (name : String) (bound : Version) (cur : String)
  | incompatibleMax (name : String) (bound : Version) (cur : String)
  | failedToStart (name : String) (inner : String)
  | internalActivated
  | hookError (plugin : String) (phase : String)
  | keyError (key : String)
  | attributeError (attr : String)
  | outOfFuel
deriving DecidableEq, Repr

/-- The message string each exception is raised with in the source. -/
def render : PluginError → String
  | .notFound n => "Could not find the plugin named " ++ n ++ "."
  | .alreadyActive n => "Plugin " ++ n ++ " already activate."
  | .flowNotFound n => "Could not find the flow named " ++ n ++ "."
  | .flowAlreadyActive n => "Flow " ++ n ++ " is already active."
  | .flowAlreadyInactive n => "Flow " ++ n ++ " is already inactive."
  | .circularDependency chain =>
      "Circular dependency in the set of plugins (" ++ String.intercalate ", " chain ++ ")"
  | .unknownDependency d => "Unknown plugin dependency (" ++ d ++ ")"
  | .incompatibleMin n b cur =>
      "The plugin " ++ n ++ " asks for Errbot with a minimal version of " ++
        pyTupleStr b ++ " while Errbot is version " ++ cur
  | .incompatibleMax n b cur =>
      "The plugin " ++ n ++ " asks for Errbot with a maximum version of " ++
        pyTupleStr b ++ " while Errbot is version " ++ cur
  | .failedToStart n inner => n ++ " failed to start : " ++ inner ++ "."
  | .internalActivated => "Internal Error, invalid activated state."
  | .hookError p phase => "hook " ++ phase ++ " of plugin " ++ p ++ " raised"
  | .keyError k => "KeyError: " ++ k
  | .attributeError a => "AttributeError: " ++ a
  | .outOfFuel => "out of fuel"

/-- Whether the exception is a `PluginActivationException` (including its
subclasses), which `activate_plugin` re-raises unchanged; any other
exception is wrapped into `'%s failed to start : %s.'`. -/
def isPAE : PluginError → Bool
  | .notFound _ | .alreadyActive _ | .flowNotFound _ | .flowAlreadyActive _
  | .flowAlreadyInactive _ | .circularDependency _ | .unknownDependency _
  | .incompatibleMin _ _ _ | .incompatibleMax _ _ _ | .failedToStart _ _ => true
  | _ => false

/-- Registry lookup `self.plugins[name]` (as an `Option`). -/
def lookupPlugin (st : Manager) (n : String) : Option BotPlugin :=
  st.plugins.lookup n

/-- Registry lookup `self.plugin_infos[name]` (as an `Option`). -/
def lookupInfo (st : Manager) (n : String) : Option PluginInfo :=
  st.plugin_infos.lookup n

/-- The keys of the plugin registry, in dict insertion order. -/
def pluginKeys (st : Manager) : List String :=
  st.plugins.map Prod.fst

/-- Whether the named plugin exists and has `is_activated` set. -/
def isActive (st : Manager) (n : String) : Bool :=
  match lookupPlugin st n with
  | some p => p.is_activated
  | none => false

/-- Applies `f` to the plugin object stored under `n` (Python mutates the
shared object in place; here we rebuild the registry). -/
def updPlugin (st : Manager) (n : String) (f : BotPlugin → BotPlugin) : Manager :=
  { st with plugins := st.plugins.map (fun kp => if kp.1 = n then (kp.1, f kp.2) else kp) }

/-- Modelled from the spec: `add_plugin_templates_path(plugin_info)` of the
external templating module, tracked by descriptor name. -/
def addTemplatesPath (st : Manager) (pi : PluginInfo) : Manager :=
  { st with template_paths := st.template_paths ++ [pi.name] }

/-- Modelled from the spec: `remove_plugin_templates_path(plugin_info)`. -/
def removeTemplatesPath (st : Manager) (pi : PluginInfo) : Manager :=
  { st with template_paths := st.template_paths.erase pi.name }

/-- Embeds `check_python_plug_section`: `True` when the plugin is loadable.
A plugin declaring a version below `(3, 0, 0)` is python-2 only (not
loadable); a plugin declaring `version >= sys_version` is refused as too new;
no declared version means loadable. -/
def check_python_plug_section (sys_version : Version) (pi : PluginInfo) : Bool :=
  match pi.python_version with
  | none => true
  | some version =>
    if verLt version (3, 0, 0) then false
    else if !(verLt version sys_version) then false
    else true

/-- Embeds `check_errbot_version`: `some e` when it raises
`IncompatiblePluginException e`, `none` when the range is satisfied.
The minimum bound is checked first, exactly as in the source. -/
def check_errbot_version (env : Env) (pi : PluginInfo) : Option PluginError :=
  match pi.errbot_minversion with
  | some mn =>
    if verLt env.errbot_version mn then
      some (.incompatibleMin pi.name mn env.errbot_version_str)
    else
      match pi.errbot_maxversion with
      | some mx =>
        if verLt mx env.errbot_version then
          some (.incompatibleMax pi.name mx env.errbot_version_str)
        else none
      | none => none
  | none =>
    match pi.errbot_maxversion with
    | some mx =>
      if verLt mx env.errbot_version then
        some (.incompatibleMax pi.name mx env.errbot_version_str)
      else none
    | none => none

/-- Persisted configuration lookup `get_plugin_configuration`. -/
def get_plugin_configuration (st : Manager) (n : String) : Option String :=
  st.configs.lookup n

/-- Embeds `BotPluginManager.deactivate_plugin`.  On an already-inactive
plugin it logs a warning and returns silently.  `plugin.deactivate()` is
modelled from the spec: it clears `is_activated` and does not raise. -/
def deactivate_plugin (st : Manager) (name : String) :
    Except (PluginError × Manager) Manager :=
  match lookupPlugin st name with
  | none => .error (.keyError name, st)
  | some plugin =>
    if !plugin.is_activated then .ok st
    else
      match lookupInfo st name with
      | none => .error (.keyError name, st)
      | some pi =>
        let st := updPlugin st name (fun p => { p with is_activated := false })
        .ok (removeTemplatesPath st pi)

/-- Embeds `BotPluginManager._activate_plugin` (activation "with no check").
The configure step fetches the persisted configuration and hands it to the
plugin (the configuration hooks of the external `BotPlugin` are modelled as
non-raising); the activation phase registers the template path, stamps docs
(`populate_doc` touches class-level state only and cannot fail), runs the
`activate` hook, registers web routes and runs `callback_connect`.  An
exception in the activation phase triggers `deactivate_plugin` before the
exception is re-raised.  Modelled from the spec: the `activate` hook sets
`is_activated` when it does not raise. -/
def _activate_plugin (st : Manager) (name : String) (pi : PluginInfo) :
    Except (PluginError × Manager) Manager :=
  match lookupPlugin st name with
  | none => .error (.keyError name, st)
  | some plugin =>
    if plugin.is_activated then .error (.internalActivated, st)
    else
      let config := get_plugin_configuration st name
      let st := updPlugin st name (fun p => { p with config := config })
      let st := addTemplatesPath st pi
      if plugin.activateRaises then
        match deactivate_plugin st name with
        | .ok st => .error (.hookError name "activate", st)
        | .error e => .error e
      else
        let st := updPlugin st name (fun p => { p with is_activated := true })
        if plugin.routeRaises then
          match deactivate_plugin st name with
          | .ok st => .error (.hookError name "route", st)
          | .error e => .error e
        else if plugin.connectRaises then
          match deactivate_plugin st name with
          | .ok st => .error (.hookError name "callback_connect", st)
          | .error e => .error e
        else .ok st

/-- Python's `set.add` on the dependency tracking set, embedded as an
insertion-ordered list without duplicates. -/
def setAdd (track : List String) (n : String) : List String :=
  if n ∈ track then track else track ++ [n]

/-- Result type of `_activate_plugin_dependencies`: the declared dependency
list of the argument, plus the threaded manager state and tracking set. -/
abbrev DepsResult :=
  Except (PluginError × Manager) (List String × Manager × List String)

/-- The `for dep_name in depends_on` loop body of
`_activate_plugin_dependencies`: raise on a tracked name (cycle), raise on an
unknown name, read the dependency's plugin and descriptor, and recurse into
inactive dependencies (via `rec`) before activating them. -/
def depLoop (rec : Manager → List String → String → DepsResult) :
    List String → Manager → List String →
    Except (PluginError × Manager) (Manager × List String)
  | [], st, track => .ok (st, track)
  | dep :: rest, st, track =>
    if dep ∈ track then .error (.circularDependency track, st)
    else
      match lookupPlugin st dep with
      | none => .error (.unknownDependency dep, st)
      | some dep_plugin =>
        match lookupInfo st dep with
        | none => .error (.keyError dep, st)
        | some dep_pi =>
          if dep_plugin.is_activated then depLoop rec rest st track
          else
            match rec st track dep with
            | .error e => .error e
            | .ok (_, st2, track2) =>
              match _activate_plugin st2 dep dep_pi with
              | .error e => .error e
              | .ok st3 => depLoop rec rest st3 track2

/-- Embeds `BotPluginManager._activate_plugin_dependencies`; the unbounded
Python recursion is embedded with explicit fuel (`outOfFuel` is unreachable
whenever the fuel exceeds the number of registered plugins). -/
def _activate_plugin_dependencies (fuel : Nat) (st : Manager) (track : List String)
    (name : String) : DepsResult :=
  match fuel with
  | 0 => .error (.outOfFuel, st)
  | f + 1 =>
    match lookupInfo st name with
    | none => .error (.keyError name, st)
    | some pi =>
      let track := setAdd track name
      match depLoop (fun st tr d => _activate_plugin_dependencies f st tr d)
          pi.dependencies st track with
      | .error e => .error e
      | .ok (st, track) => .ok (pi.dependencies, st, track)

/-- The `except` clauses of `activate_plugin`: a `PluginActivationException`
is re-raised unchanged, anything else is wrapped into
`'%s failed to start : %s.'`. -/
def wrapActivationError (name : String) (e : PluginError × Manager) :
    PluginError × Manager :=
  if isPAE e.1 then e else (.failedToStart name (render e.1), e.2)

/-- Embeds `BotPluginManager.activate_plugin`: not-found and already-active
checks, the interpreter gate (whose failure is a non-raising `return None`,
embedded as `.ok` with the state unchanged), the host version gate, the
recursive dependency activation, the recording of the declared dependency
list on the plugin instance, and the activation of the target itself. -/
def activate_plugin (env : Env) (fuel : Nat) (st : Manager) (name : String) :
    Except (PluginError × Manager) Manager :=
  let body : Except (PluginError × Manager) Manager :=
    match lookupPlugin st name with
    | none => .error (.notFound name, st)
    | some plugin =>
      if plugin.is_activated then .error (.alreadyActive name, st)
      else
        match lookupInfo st name with
        | none => .error (.keyError name, st)
        | some pi =>
          if !check_python_plug_section env.sys_version pi then .ok st
          else
            match check_errbot_version env pi with
            | some e => .error (e, st)
            | none =>
              match _activate_plugin_dependencies fuel st [] name with
              | .error e => .error e
              | .ok (depends_on, st, _) =>
                let st := updPlugin st name
                  (fun p => { p with dependencies := some depends_on })
                _activate_plugin st name pi
  match body with
  | .ok st => .ok st
  | .error e => .error (wrapActivationError name e)

/-- Embeds `BotPluginManager.activate_flow`. Modelled from the spec:
`flow.activate()` of the external `BotFlow` sets the flag. -/
def activate_flow (st : Manager) (name : String) :
    Except (PluginError × Manager) Manager :=
  match st.flows.lookup name with
  | none => .error (.flowNotFound name, st)
  | some activated =>
    if activated then .error (.flowAlreadyActive name, st)
    else
      .ok { st with
            flows := st.flows.map (fun kf => if kf.1 = name then (kf.1, true) else kf) }

/-- Blacklist membership `is_plugin_blacklisted` (the persisted
`self[BL_PLUGINS]` list). -/
def is_plugin_blacklisted (st : Manager) (name : String) : Bool :=
  name ∈ st.blacklist

/-- Embeds `blacklist_plugin`: idempotent append to the persisted list,
returning the reported message. -/
def blacklist_plugin (st : Manager) (name : String) : String × Manager :=
  if is_plugin_blacklisted st name then
    ("Plugin " ++ name ++ " is already blacklisted", st)
  else
    ("Plugin " ++ name ++ " is now blacklisted",
      { st with blacklist := st.blacklist ++ [name] })

/-- The notice `activate_non_started_plugins` records for a blacklisted
plugin (with the `%s`s filled in as in the source). -/
def blacklistNotice (pluginName pfx key : String) : String :=
  "Notice: " ++ pluginName ++ " is blacklisted, use " ++ pfx ++
    "plugin unblacklist " ++ key ++ " to unblacklist it\n"

/-- The error line `activate_non_started_plugins` records when
`activate_plugin` raises. -/
def activationErrorLine (name msg : String) : String :=
  "Error: " ++ name ++ " failed to activate: " ++ msg ++ "\n"

/-- The error line `activate_non_started_plugins` records when
`activate_flow` raises. -/
def flowErrorLine (name msg : String) : String :=
  "Error: flow " ++ name ++ " failed to start: " ++ msg ++ "\n"

/-- One iteration of the plugin loop of `activate_non_started_plugins`:
blacklisted plugins are skipped with a notice, inactive plugins are
activated with exceptions collected into the error string. -/
def bulkStep (env : Env) (fuel : Nat) (acc : String × Manager) (name : String) :
    String × Manager :=
  let (errors, st) := acc
  match lookupPlugin st name with
  | none => (errors, st)
  | some plugin =>
    if is_plugin_blacklisted st name then
      (errors ++ blacklistNotice plugin.name st.botPfx name, st)
    else if !plugin.is_activated then
      match activate_plugin env fuel st name with
      | .ok st2 => (errors, st2)
      | .error (e, st2) => (errors ++ activationErrorLine name (render e), st2)
    else (errors, st)

/-- One iteration of the flow loop of `activate_non_started_plugins`. -/
def bulkFlowStep (acc : String × Manager) (name : String) : String × Manager :=
  let (errors, st) := acc
  match st.flows.lookup name with
  | none => (errors, st)
  | some activated =>
    if !activated then
      match activate_flow st name with
      | .ok st2 => (errors, st2)
      | .error (e, st2) => (errors ++ flowErrorLine name (render e), st2)
    else (errors, st)

/-- Embeds `BotPluginManager.activate_non_started_plugins`: iterate the
plugin registry (skipping blacklisted entries with a notice, catching
activation errors into the returned string), then the flow registry. -/
def activate_non_started_plugins (env : Env) (fuel : Nat) (st : Manager) :
    String × Manager :=
  let afterPlugins := (pluginKeys st).foldl (bulkStep env fuel) ("", st)
  (st.flows.map Prod.fst).foldl bulkFlowStep afterPlugins

/-- The body of the `for name in self.plugins_callback_order` loop of
`get_all_active_plugin_objects_ordered`, with `fullOrder` the (normalized)
callback order the wildcard branch filters against.  An explicitly named
plugin is looked up with `self.plugins[name]` — a missing key raises
`KeyError`; a named but inactive plugin is skipped; the wildcard entry
splices in every activated plugin whose name does not appear in the order,
in registry order. -/
def orderedLoop (st : Manager) (fullOrder : List (Option String)) :
    List (Option String) → Except PluginError (List BotPlugin)
  | [] => .ok []
  | none :: rest =>
    let unordered :=
      (st.plugins.filter
        (fun kp => !decide ((some kp.1) ∈ fullOrder) && kp.2.is_activated)).map Prod.snd
    match orderedLoop st fullOrder rest with
    | .ok l => .ok (unordered ++ l)
    | .error e => .error e
  | some name :: rest =>
    match lookupPlugin st name with
    | none => .error (.keyError name)
    | some plugin =>
      match orderedLoop st fullOrder rest with
      | .ok l => .ok (if plugin.is_activated then plugin :: l else l)
      | .error e => .error e

/-- The in-place normalization at the top of
`get_all_active_plugin_objects_ordered`: ensure the `None` wildcard entry is
present, appending it when absent. -/
def normalizedOrder (st : Manager) : List (Option String) :=
  if (none : Option String) ∈ st.plugins_callback_order then
    st.plugins_callback_order
  else st.plugins_callback_order ++ [none]

/-- Embeds `get_all_active_plugin_objects_ordered`.  The source first
normalizes `self.plugins_callback_order` in place by appending the `None`
wildcard when absent; the claims below depend only on the returned list, so
the normalized order is passed along rather than stored back. -/
def get_all_active_plugin_objects_ordered (st : Manager) :
    Except PluginError (List BotPlugin) :=
  orderedLoop st (normalizedOrder st) (normalizedOrder st)

/-- Every plugin name appearing in the callback ordering spec resolves in
the plugin registry. -/
def orderNamesKnown (st : Manager) : Bool :=
  st.plugins_callback_order.all (fun e =>
    match e with
    | some n => (lookupPlugin st n).isSome
    | none => true)

/-- Modelled from the spec: the ordering contract of §4.6 in the spec's own
words — "all currently activated plugins, with explicitly named plugins
emitted first in declared order (only if activated), followed by all other
activated plugins (not explicitly named) in their natural registry order, at
the position of the wildcard placeholder (appended at the end if the spec
omitted the placeholder)".  Used as the comparison point of the refinement
theorem for the ordered broadcast list. -/
def orderedActiveSpec (st : Manager) : List BotPlugin :=
  ((normalizedOrder st).map (fun entry =>
    match entry with
    | none =>
      (st.plugins.filter
        (fun kp => !decide ((some kp.1) ∈ normalizedOrder st) && kp.2.is_activated)).map Prod.snd
    | some n =>
      match lookupPlugin st n with
      | some p => if p.is_activated then [p] else []
      | none => [])).foldr (fun a b => a ++ b) []

/-- Embeds `get_all_active_plugin_objects`. -/
def get_all_active_plugin_objects (st : Manager) : List BotPlugin :=
  (st.plugins.filter (fun kp => kp.2.is_activated)).map Prod.snd

/-- Embeds `get_all_active_plugin_names`. -/
def get_all_active_plugin_names (st : Manager) : List String :=
  (st.plugins.filter (fun kp => kp.2.is_activated)).map Prod.fst

/-- Embeds `BotPluginManager.reload_plugin_by_name`.  `disk` models the
file system as seen by `machinery.SourceFileLoader(...).load_module(...)`:
for a module name, the names of the classes its file currently defines
(modelled from the spec, since module loading is a language primitive).
The source deactivates an activated plugin, reloads the module fresh from
disk, looks up the class named `type(plugin).__name__` in it (`getattr`
raises when it is gone), rebinds the live instance's `__class__` — which in
Python preserves every instance attribute, so the embedded instance record
is unchanged — and reactivates by name. -/
def reload_plugin_by_name (env : Env) (fuel : Nat) (disk : String → List String)
    (st : Manager) (name : String) : Except (PluginError × Manager) Manager :=
  match lookupPlugin st name with
  | none => .error (.keyError name, st)
  | some plugin =>
    let afterDeactivate :=
      if plugin.is_activated then deactivate_plugin st name else .ok st
    match afterDeactivate with
    | .error e => .error e
    | .ok st =>
      let module_alias := plugin.module
      let class_name := plugin.className
      if class_name ∈ disk module_alias then
        activate_plugin env fuel st name
      else .error (.attributeError class_name, st)

/-- Decidable equality for `Except`, used to evaluate concrete runs of the
embedded operations inside closed theorems. -/
instance {ε α : Type} [DecidableEq ε] [DecidableEq α] : DecidableEq (Except ε α) :=
  fun x y =>
    match x, y with
    | .ok a, .ok b =>
      if h : a = b then .isTrue (by rw [h]) else .isFalse (by simp [h])
    | .error a, .error b =>
      if h : a = b then .isTrue (by rw [h]) else .isFalse (by simp [h])
    | .ok _, .error _ => .isFalse (by simp)
    | .error _, .ok _ => .isFalse (by simp)

/-- Everything of a plugin instance except its `is_activated` flag and its
`config`: the fields no inner lifecycle operation rewrites. -/
def coreEq (p q : BotPlugin) : Prop :=
  q.name = p.name ∧ q.module = p.module ∧ q.className = p.className ∧
  q.dependencies = p.dependencies ∧ q.attrs = p.attrs ∧
  q.activateRaises = p.activateRaises ∧ q.routeRaises = p.routeRaises ∧
  q.connectRaises = p.connectRaises

/-- What every operation between the version gates and the end of an
activation run preserves: all registries other than the plugin instances,
the plugin keys, and the core of every plugin instance. -/
def innerFrame (st st' : Manager) : Prop :=
  st'.plugin_infos = st.plugin_infos ∧
  st'.blacklist = st.blacklist ∧
  st'.plugins_callback_order = st.plugins_callback_order ∧
  st'.configs = st.configs ∧
  st'.flows = st.flows ∧
  st'.botPfx = st.botPfx ∧
  pluginKeys st' = pluginKeys st ∧
  ∀ k p, lookupPlugin st k = some p → ∃ q, lookupPlugin st' k = some q ∧ coreEq p q

/-- No registered plugin instance has a raising hook. -/
def NoHookRaises (st : Manager) : Prop :=
  ∀ k p, lookupPlugin st k = some p →
    p.activateRaises = false ∧ p.routeRaises = false ∧ p.connectRaises = false

/-! Dependency-graph notions over the descriptor registry, used to state the
activation theorems. -/

/-- The declared dependency list of `n` in the descriptor registry `G`
(empty when `n` has no descriptor). -/
def infoDeps (G : List (String × PluginInfo)) (n : String) : List String :=
  match List.lookup n G with
  | some pi => pi.dependencies
  | none => []

/-- One declared-dependency edge of the descriptor registry. -/
def DepEdge (G : List (String × PluginInfo)) (a b : String) : Prop :=
  b ∈ infoDeps G a

/-- Reachability along declared dependencies. -/
def Reaches (G : List (String × PluginInfo)) : String → String → Prop :=
  Relation.ReflTransGen (DepEdge G)

/-- The node lies on a dependency cycle. -/
def OnCycle (G : List (String × PluginInfo)) (v : String) : Prop :=
  Relation.TransGen (DepEdge G) v v

/-- No dependency cycle is reachable from `n`. -/
def CycleFree (G : List (String × PluginInfo)) (n : String) : Prop :=
  ∀ v, Reaches G n v → ¬ OnCycle G v

/-- A concrete dependency path from `a` to `b`: the list records the nodes
traversed, source included and target excluded. -/
inductive DepPath (G : List (String × PluginInfo)) : String → String → List String → Prop where
  | refl (a : String) : DepPath G a a []
  | step {a b c : String} {l : List String} :
      DepEdge G a b → DepPath G b c l → DepPath G a c (a :: l)

/-- Every node reachable from `r` is reached along exactly one path: the
dependency closure of `r` is a tree (in particular acyclic, with no plugin
shared between two branches). -/
def UniquePathsFrom (G : List (String × PluginInfo)) (r : String) : Prop :=
  ∀ v l1 l2, DepPath G r v l1 → DepPath G r v l2 → l1 = l2

/-- Well-formed registries: every registered plugin has a descriptor, every
declared dependency of a registered descriptor is a registered plugin, and
the registry keys are duplicate-free (Python dicts guarantee this). -/
def WFM (st : Manager) : Prop :=
  (∀ n ∈ pluginKeys st, (lookupInfo st n).isSome = true) ∧
  (∀ e ∈ st.plugin_infos, ∀ d ∈ e.2.dependencies, d ∈ pluginKeys st) ∧
  (pluginKeys st).Nodup

/-- Both compatibility gates pass for the descriptor registered under `n`
(an unregistered descriptor passes vacuously; `activate_plugin` catches that
case earlier). -/
def gatesPassB (env : Env) (st : Manager) (n : String) : Bool :=
  match lookupInfo st n with
  | some pi =>
    check_python_plug_section env.sys_version pi &&
      (check_errbot_version env pi).isNone
  | none => true

/-! Concrete registries used by the closed scenario theorems: a plugin and
descriptor builder with no version constraints and non-raising hooks, and an
environment standing for a python 3.9 interpreter running errbot 6.1.7. -/

/-- A quiescent plugin instance named `n`. -/
def basePlugin (n : String) : BotPlugin :=
  { name := n, module := "mod_" ++ n, className := "Cls" ++ n,
    is_activated := false, dependencies := none, config := none, attrs := [],
    activateRaises := false, routeRaises := false, connectRaises := false }

/-- An unconstrained descriptor named `n` with the given dependency list. -/
def baseInfo (n : String) (deps : List String) : PluginInfo :=
  { name := n, module := "mod_" ++ n, dependencies := deps,
    python_version := none, errbot_minversion := none,
    errbot_maxversion := none, core := false, doc := "" }

/-- A manager whose registries hold exactly the given plugins (all inactive)
with the given declared dependencies. -/
def baseManager (ps : List (String × List String)) : Manager :=
  { plugins := ps.map (fun p => (p.1, basePlugin p.1)),
    plugin_infos := ps.map (fun p => (p.1, baseInfo p.1 p.2)),
    flows := [], blacklist := [], plugins_callback_order := [],
    configs := [], template_paths := [], botPfx := "!" }

/-- A python 3.9.0 interpreter running errbot 6.1.7. -/
def stdEnv : Env :=
  { sys_version := (3, 9, 0), errbot_version := (6, 1, 7),
    errbot_version_str := "6.1.7" }

/-- Acyclic diamond: `T` depends on `A` and `B`, `A` depends on `B`. -/
def diamondSt : Manager := baseManager [("T", ["A", "B"]), ("A", ["B"]), ("B", [])]

/-- Acyclic chain: `T` depends on `A`, `A` depends on `B`. -/
def chainSt : Manager := baseManager [("T", ["A"]), ("A", ["B"]), ("B", [])]

/-- The two-plugin cycle of the spec scenario: `P1` and `P2` depend on each
other, both inactive. -/
def cycleSt : Manager := baseManager [("P1", ["P2"]), ("P2", ["P1"])]

/-- The same cycle, but with `P2` already activated before the call. -/
def cycleActiveSt : Manager :=
  { cycleSt with plugins :=
      [("P1", basePlugin "P1"), ("P2", { basePlugin "P2" with is_activated := true })] }

/-- A single registered plugin declaring a python-2-only interpreter version. -/
def py2St : Manager :=
  let s := baseManager [("P", [])]
  { s with plugin_infos :=
      [("P", { baseInfo "P" [] with python_version := some (2, 7, 0) })] }

/-- A single registered plugin requiring an interpreter at least as new as
the running one. -/
def tooNewSt : Manager :=
  let s := baseManager [("P", [])]
  { s with plugin_infos :=
      [("P", { baseInfo "P" [] with python_version := some (3, 9, 0) })] }

/-- A single registered, inactive, unconstrained plugin. -/
def singleSt : Manager := baseManager [("P", [])]

/-- A single registered plugin, already activated. -/
def singleActiveSt : Manager :=
  { singleSt with plugins := [("P", { basePlugin "P" with is_activated := true })] }

/-- A plugin whose descriptor declares a host maximum version below the
running host version. -/
def maxVersionSt : Manager :=
  let s := baseManager [("P3", [])]
  { s with plugin_infos :=
      [("P3", { baseInfo "P3" [] with errbot_maxversion := some (4, 0, 0) })] }

/-- A plugin whose `activate` hook raises. -/
def hookFailSt : Manager :=
  { singleSt with plugins := [("P", { basePlugin "P" with activateRaises := true })] }

/-- Registry `A, B, C`, all activated, callback order `["B", wildcard, "A"]`. -/
def orderedSt : Manager :=
  let s := baseManager [("A", []), ("B", []), ("C", [])]
  { s with
    plugins := s.plugins.map (fun kp => (kp.1, { kp.2 with is_activated := true })),
    plugins_callback_order := [some "B", none, some "A"] }

/-- The same registry with an ordering spec naming the unknown plugin `Z`. -/
def orderedBadSt : Manager :=
  { orderedSt with plugins_callback_order := [some "Z", none] }

/-- `X` is blacklisted but the non-blacklisted `Y` declares a dependency on
it; both inactive. -/
def bulkDepSt : Manager :=
  let s := baseManager [("X", []), ("Y", ["X"])]
  { s with blacklist := ["X"] }

/-- `X` is blacklisted and nothing depends on it; `Y` is independent. -/
def bulkFreeSt : Manager :=
  let s := baseManager [("X", []), ("Y", [])]
  { s with blacklist := ["X"] }

/-- An activated plugin `R` carrying a runtime attribute, for the reload
scenario. -/
def reloadSt : Manager :=
  let s := baseManager [("R", [])]
  { s with plugins :=
      [("R", { basePlugin "R" with is_activated := true, attrs := [("x", "42")] })] }

/-- The on-disk module contents for the reload scenario: `R`'s module still
defines its class. -/
def reloadDisk : String → List String :=
  fun m => if m = "mod_R" then ["ClsR"] else []

/-- The exception (if any) of a lifecycle run, for stating concrete scenarios. -/
def runError {α : Type} (r : Except (PluginError × Manager) α) : Option PluginError :=
  match r with
  | .error (e, _) => some e
  | .ok _ => none

/-- The state at the moment a lifecycle run raised (or `dflt` if it did not). -/
def runErrorState {α : Type} (r : Except (PluginError × Manager) α) (dflt : Manager) : Manager :=
  match r with
  | .error (_, st) => st
  | .ok _ => dflt

/-- The state a lifecycle run returned (or `dflt` if it raised). -/
def runOkState (r : Except (PluginError × Manager) Manager) (dflt : Manager) : Manager :=
  match r with
  | .ok st => st
  | .error _ => dflt

/-- Fuel measure of the dependency recursion: the number of registered
plugins not yet in the tracking set.  Each recursive call of
`_activate_plugin_dependencies` strictly decreases it, so any fuel above the
registry size is enough. -/
def fuelMeasure (st : Manager) (track : List String) : Nat :=
  ((pluginKeys st).filter (fun k => !decide (k ∈ track))).length

/-- The two-plugin cycle with an unknown dependency hit first: `Q` depends on
the unregistered `U` and on `P1`, and `P1`/`P2` depend on each other. -/
def cycleUnknownSt : Manager :=
  baseManager [("Q", ["U", "P1"]), ("P1", ["P2"]), ("P2", ["P1"])]

/-- The two-plugin cycle behind a failing interpreter gate: `P1` (on the
cycle) declares a python-2-only version. -/
def cycleGateSt : Manager :=
  let s := baseManager [("P1", ["P2"]), ("P2", ["P1"])]
  { s with plugin_infos :=
      [("P1", { baseInfo "P1" ["P2"] with python_version := some (2, 7, 0) }),
       ("P2", baseInfo "P2" ["P1"])] }

/-- The two-plugin cycle behind a raising hook: `Q` depends on `X` (whose
`activate` hook raises) before `P1` of the cycle. -/
def cycleHookSt : Manager :=
  let s := baseManager [("Q", ["X", "P1"]), ("X", []), ("P1", ["P2"]), ("P2", ["P1"])]
  { s with plugins := s.plugins.map (fun kp =>
      if kp.1 = "X" then (kp.1, { kp.2 with activateRaises := true }) else kp) }

/-- Decidability of the dependency-edge relation, for concrete scenarios. -/
instance (G : List (String × PluginInfo)) (a b : String) : Decidable (DepEdge G a b) :=
  inferInstanceAs (Decidable (b ∈ infoDeps G a))

/-- Decidability of registry well-formedness, for concrete scenarios. -/
instance (st : Manager) : Decidable (WFM st) := by
  unfold WFM
  infer_instance

/-- A two-node dependency cycle puts its first node on a cycle. -/
def onCycleTwo (G : List (String × PluginInfo)) (a b : String)
    (hab : DepEdge G a b) (hba : DepEdge G b a) : OnCycle G a :=
  Relation.TransGen.head hab (Relation.TransGen.single hba)

/-- What every lifecycle operation aimed at a plugin other than `X` leaves
alone: the descriptor registry, the persisted blacklist, the bot prefix,
the registry keys, and `X`'s own registry entry. -/
def preservesK (X : String) (st st' : Manager) : Prop :=
  st'.plugin_infos = st.plugin_infos ∧
  st'.blacklist = st.blacklist ∧
  st'.botPfx = st.botPfx ∧
  pluginKeys st' = pluginKeys st ∧
  lookupPlugin st' X = lookupPlugin st X

/-- A predicate on the state carried by either outcome of a lifecycle call. -/
def ExceptStateP (P : Manager → Prop) : Except (PluginError × Manager) Manager → Prop
  | .ok st' => P st'
  | .error (_, st') => P st'

/-- The same for the dependency-recursion result shape. -/
def DepsStateP (P : Manager → Prop) : DepsResult → Prop
  | .ok (_, st', _) => P st'
  | .error (_, st') => P st'

/-- The same for the loop-body result shape. -/
def LoopStateP (P : Manager → Prop) :
    Except (PluginError × Manager) (Manager × List String) → Prop
  | .ok (st', _) => P st'
  | .error (_, st') => P st'

/-! Association-list toolkit used throughout the proofs. -/

theorem lookup_nil {β : Type} (k : String) :
    List.lookup k ([] : List (String × β)) = none := rfl

theorem lookup_cons_self {β : Type} (a : String) (b : β) (l : List (String × β)) :
    List.lookup a ((a, b) :: l) = some b := by
  simp [List.lookup]

theorem lookup_cons_ne {β : Type} {k a : String} (b : β) (l : List (String × β))
    (h : k ≠ a) : List.lookup k ((a, b) :: l) = List.lookup k l := by
  cases hb : k == a with
  | true => exact absurd (by simpa using hb) h
  | false => simp [List.lookup, hb]

theorem lookup_map_upd {β : Type} (l : List (String × β)) (n k : String) (f : β → β) :
    List.lookup k (l.map (fun kp => if kp.1 = n then (kp.1, f kp.2) else kp)) =
      if k = n then (List.lookup k l).map f else List.lookup k l := by
  induction l with
  | nil => simp
  | cons hd tl ih =>
    obtain ⟨a, b⟩ := hd
    rw [List.map_cons]
    by_cases han : a = n
    · rw [if_pos (by simpa using han)]
      by_cases hka : k = a
      · subst hka
        subst han
        simp [lookup_cons_self]
      · rw [lookup_cons_ne _ _ hka, lookup_cons_ne _ _ hka, ih]
    · rw [if_neg (by simpa using han)]
      by_cases hka : k = a
      · subst hka
        rw [lookup_cons_self, lookup_cons_self, if_neg (han ·)]
      · rw [lookup_cons_ne _ _ hka, lookup_cons_ne _ _ hka, ih]

theorem keys_map_upd {β : Type} (l : List (String × β)) (n : String) (f : β → β) :
    (l.map (fun kp => if kp.1 = n then (kp.1, f kp.2) else kp)).map Prod.fst =
      l.map Prod.fst := by
  induction l with
  | nil => rfl
  | cons hd tl ih =>
    by_cases h : hd.1 = n <;> simp [h, ih]

theorem mem_of_lookup_eq_some {β : Type} {l : List (String × β)} {k : String} {v : β}
    (h : List.lookup k l = some v) : (k, v) ∈ l := by
  induction l with
  | nil => simp [lookup_nil] at h
  | cons hd tl ih =>
    obtain ⟨a, b⟩ := hd
    by_cases hka : k = a
    · subst hka
      rw [lookup_cons_self] at h
      cases h
      exact List.mem_cons_self _ _
    · rw [lookup_cons_ne _ _ hka] at h
      exact List.mem_cons_of_mem _ (ih h)

theorem lookup_isSome_iff_mem {β : Type} (l : List (String × β)) (k : String) :
    (List.lookup k l).isSome = true ↔ k ∈ l.map Prod.fst := by
  induction l with
  | nil => simp [lookup_nil]
  | cons hd tl ih =>
    obtain ⟨a, b⟩ := hd
    by_cases hka : k = a
    · subst hka
      simp [lookup_cons_self]
    · rw [lookup_cons_ne _ _ hka]
      simp [hka, ih]

theorem lookup_eq_none_of_not_mem {β : Type} {l : List (String × β)} {k : String}
    (h : k ∉ l.map Prod.fst) : List.lookup k l = none := by
  cases hl : List.lookup k l with
  | none => rfl
  | some v =>
    exact absurd ((lookup_isSome_iff_mem l k).mp (by simp [hl])) h

/-! Manager-level corollaries of the list lemmas, and frame predicates. -/

theorem lookupPlugin_updPlugin (st : Manager) (n k : String) (f : BotPlugin → BotPlugin) :
    lookupPlugin (updPlugin st n f) k =
      if k = n then (lookupPlugin st n).map f else lookupPlugin st k := by
  show List.lookup k (st.plugins.map _) = _
  rw [lookup_map_upd]
  by_cases h : k = n <;> simp [h, lookupPlugin]

theorem pluginKeys_updPlugin (st : Manager) (n : String) (f : BotPlugin → BotPlugin) :
    pluginKeys (updPlugin st n f) = pluginKeys st :=
  keys_map_upd st.plugins n f

theorem lookupPlugin_addTemplates (st : Manager) (pi : PluginInfo) (k : String) :
    lookupPlugin (addTemplatesPath st pi) k = lookupPlugin st k := rfl

theorem lookupPlugin_removeTemplates (st : Manager) (pi : PluginInfo) (k : String) :
    lookupPlugin (removeTemplatesPath st pi) k = lookupPlugin st k := rfl

theorem isActive_upd_config (st : Manager) (n : String) (c : Option String) (k : String) :
    isActive (updPlugin st n (fun q => { q with config := c })) k = isActive st k := by
  unfold isActive
  rw [lookupPlugin_updPlugin]
  by_cases h : k = n
  · subst h
    cases lookupPlugin st k <;> simp
  · simp [h]

theorem isActive_upd_deps (st : Manager) (n : String) (d : Option (List String)) (k : String) :
    isActive (updPlugin st n (fun q => { q with dependencies := d })) k = isActive st k := by
  unfold isActive
  rw [lookupPlugin_updPlugin]
  by_cases h : k = n
  · subst h
    cases lookupPlugin st k <;> simp
  · simp [h]

theorem isActive_upd_act (st : Manager) (n : String) (b : Bool) {p : BotPlugin}
    (hp : lookupPlugin st n = some p) (k : String) :
    isActive (updPlugin st n (fun q => { q with is_activated := b })) k =
      if k = n then b else isActive st k := by
  unfold isActive
  rw [lookupPlugin_updPlugin]
  by_cases h : k = n
  · subst h
    simp [hp]
  · simp [h]

theorem coreEq_refl (p : BotPlugin) : coreEq p p := by
  exact ⟨rfl, rfl, rfl, rfl, rfl, rfl, rfl, rfl⟩

theorem coreEq_trans {p q r : BotPlugin} (h1 : coreEq p q) (h2 : coreEq q r) : coreEq p r := by
  obtain ⟨a1, a2, a3, a4, a5, a6, a7, a8⟩ := h1
  obtain ⟨b1, b2, b3, b4, b5, b6, b7, b8⟩ := h2
  exact ⟨b1.trans a1, b2.trans a2, b3.trans a3, b4.trans a4, b5.trans a5,
    b6.trans a6, b7.trans a7, b8.trans a8⟩

theorem innerFrame_refl (st : Manager) : innerFrame st st := by
  refine ⟨rfl, rfl, rfl, rfl, rfl, rfl, rfl, ?_⟩
  intro k p hp
  exact ⟨p, hp, coreEq_refl p⟩

theorem innerFrame_trans {st1 st2 st3 : Manager}
    (h1 : innerFrame st1 st2) (h2 : innerFrame st2 st3) : innerFrame st1 st3 := by
  obtain ⟨a1, a2, a3, a4, a5, a6, a7, a8⟩ := h1
  obtain ⟨b1, b2, b3, b4, b5, b6, b7, b8⟩ := h2
  refine ⟨b1.trans a1, b2.trans a2, b3.trans a3, b4.trans a4, b5.trans a5,
    b6.trans a6, b7.trans a7, ?_⟩
  intro k p hp
  obtain ⟨q, hq, hpq⟩ := a8 k p hp
  obtain ⟨r, hr, hqr⟩ := b8 k q hq
  exact ⟨r, hr, coreEq_trans hpq hqr⟩

theorem innerFrame_updPlugin (st : Manager) (n : String) (f : BotPlugin → BotPlugin)
    (hf : ∀ p, coreEq p (f p)) : innerFrame st (updPlugin st n f) := by
  refine ⟨rfl, rfl, rfl, rfl, rfl, rfl, pluginKeys_updPlugin st n f, ?_⟩
  intro k p hp
  rw [lookupPlugin_updPlugin]
  by_cases h : k = n
  · subst h
    exact ⟨f p, by simp [hp], hf p⟩
  · exact ⟨p, by simp [h, hp], coreEq_refl p⟩

theorem innerFrame_addTemplates (st : Manager) (pi : PluginInfo) :
    innerFrame st (addTemplatesPath st pi) := by
  refine ⟨rfl, rfl, rfl, rfl, rfl, rfl, rfl, ?_⟩
  intro k p hp
  exact ⟨p, hp, coreEq_refl p⟩

theorem innerFrame_removeTemplates (st : Manager) (pi : PluginInfo) :
    innerFrame st (removeTemplatesPath st pi) := by
  refine ⟨rfl, rfl, rfl, rfl, rfl, rfl, rfl, ?_⟩
  intro k p hp
  exact ⟨p, hp, coreEq_refl p⟩

theorem NoHookRaises_of_innerFrame {st st' : Manager}
    (hf : innerFrame st st') (h : NoHookRaises st) : NoHookRaises st' := by
  intro k q hq
  have hmem : k ∈ pluginKeys st' := by
    show k ∈ st'.plugins.map Prod.fst
    exact (lookup_isSome_iff_mem st'.plugins k).mp (by simp [lookupPlugin] at hq; simp [hq])
  rw [hf.2.2.2.2.2.2.1] at hmem
  have hsome : (lookupPlugin st k).isSome = true :=
    (lookup_isSome_iff_mem st.plugins k).mpr hmem
  obtain ⟨p, hp⟩ := Option.isSome_iff_exists.mp hsome
  obtain ⟨q', hq', hcore⟩ := hf.2.2.2.2.2.2.2 k p hp
  rw [hq] at hq'
  cases hq'
  obtain ⟨h1, h2, h3, h4, h5, h6, h7, h8⟩ := hcore
  have := h k p hp
  exact ⟨h6.trans this.1, h7.trans this.2.1, h8.trans this.2.2⟩

theorem isActive_addTemplates (st : Manager) (pi : PluginInfo) (k : String) :
    isActive (addTemplatesPath st pi) k = isActive st k := rfl

theorem isActive_removeTemplates (st : Manager) (pi : PluginInfo) (k : String) :
    isActive (removeTemplatesPath st pi) k = isActive st k := rfl

/-! Characterizations of the two inner lifecycle operations. -/

theorem deactivate_plugin_inactive {st : Manager} {name : String} {p : BotPlugin}
    (hp : lookupPlugin st name = some p) (hact : p.is_activated = false) :
    deactivate_plugin st name = .ok st := by
  simp [deactivate_plugin, hp, hact]

theorem deactivate_plugin_active {st : Manager} {name : String} {p : BotPlugin} {pi : PluginInfo}
    (hp : lookupPlugin st name = some p) (hact : p.is_activated = true)
    (hpi : lookupInfo st name = some pi) :
    deactivate_plugin st name =
      .ok (removeTemplatesPath
        (updPlugin st name (fun q => { q with is_activated := false })) pi) := by
  simp [deactivate_plugin, hp, hact, hpi]

theorem _activate_plugin_ok {st : Manager} {name : String} {p : BotPlugin} (pi : PluginInfo)
    (hp : lookupPlugin st name = some p) (hact : p.is_activated = false)
    (h1 : p.activateRaises = false) (h2 : p.routeRaises = false)
    (h3 : p.connectRaises = false) :
    _activate_plugin st name pi =
      .ok (updPlugin
            (addTemplatesPath
              (updPlugin st name
                (fun q => { q with config := get_plugin_configuration st name })) pi)
            name (fun q => { q with is_activated := true })) := by
  simp [_activate_plugin, hp, hact, h1, h2, h3]

theorem _activate_plugin_ok_spec {st : Manager} {name : String} {p : BotPlugin} (pi : PluginInfo)
    (hp : lookupPlugin st name = some p) (hact : p.is_activated = false)
    (h1 : p.activateRaises = false) (h2 : p.routeRaises = false)
    (h3 : p.connectRaises = false) :
    ∃ st', _activate_plugin st name pi = .ok st' ∧ innerFrame st st' ∧
      (∀ k, isActive st' k = if k = name then true else isActive st k) := by
  have hok := _activate_plugin_ok pi hp hact h1 h2 h3
  refine ⟨_, hok, ?_, ?_⟩
  · exact innerFrame_trans
      (innerFrame_trans
        (innerFrame_updPlugin st name
          (fun q => { q with config := get_plugin_configuration st name })
          (fun q => ⟨rfl, rfl, rfl, rfl, rfl, rfl, rfl, rfl⟩))
        (innerFrame_addTemplates _ pi))
      (innerFrame_updPlugin _ name
        (fun q => { q with is_activated := true })
        (fun q => ⟨rfl, rfl, rfl, rfl, rfl, rfl, rfl, rfl⟩))
  · intro k
    have hmid : lookupPlugin
        (addTemplatesPath
          (updPlugin st name
            (fun q => { q with config := get_plugin_configuration st name })) pi) name =
        some { p with config := get_plugin_configuration st name } := by
      rw [lookupPlugin_addTemplates, lookupPlugin_updPlugin]
      simp [hp]
    rw [isActive_upd_act _ _ _ hmid k]
    by_cases h : k = name
    · simp [h]
    · simp [h, isActive_addTemplates, isActive_upd_config]

theorem _activate_plugin_hookfail {st : Manager} {name : String} {p : BotPlugin}
    (pi : PluginInfo)
    (hp : lookupPlugin st name = some p) (hact : p.is_activated = false)
    (hpi : (lookupInfo st name).isSome = true)
    (hraise : p.activateRaises = true ∨ p.routeRaises = true ∨ p.connectRaises = true) :
    ∃ phase st', _activate_plugin st name pi = .error (.hookError name phase, st') ∧
      isActive st' name = false := by
  obtain ⟨pix, hpix⟩ := Option.isSome_iff_exists.mp hpi
  have hcfg : lookupPlugin
      (addTemplatesPath
        (updPlugin st name
          (fun q => { q with config := get_plugin_configuration st name })) pi) name =
      some { p with config := get_plugin_configuration st name } := by
    rw [lookupPlugin_addTemplates, lookupPlugin_updPlugin]
    simp [hp]
  cases hA : p.activateRaises with
  | true =>
    refine ⟨"activate",
      addTemplatesPath
        (updPlugin st name
          (fun q => { q with config := get_plugin_configuration st name })) pi, ?_, ?_⟩
    · simp [_activate_plugin, hp, hact, hA,
        deactivate_plugin_inactive hcfg (by simpa using hact)]
    · rw [isActive_addTemplates, isActive_upd_config]
      simp [isActive, hp, hact]
  | false =>
    have hactT : lookupPlugin
        (updPlugin
          (addTemplatesPath
            (updPlugin st name
              (fun q => { q with config := get_plugin_configuration st name })) pi) name
          (fun q => { q with is_activated := true })) name =
        some { p with config := get_plugin_configuration st name, is_activated := true } := by
      rw [lookupPlugin_updPlugin]
      simp [hcfg]
    have hinfoT : lookupInfo
        (updPlugin
          (addTemplatesPath
            (updPlugin st name
              (fun q => { q with config := get_plugin_configuration st name })) pi) name
          (fun q => { q with is_activated := true })) name = some pix := hpix
    have hdeact := deactivate_plugin_active hactT (by simp) hinfoT
    have hinact : isActive
        (removeTemplatesPath
          (updPlugin
            (updPlugin
              (addTemplatesPath
                (updPlugin st name
                  (fun q => { q with config := get_plugin_configuration st name })) pi) name
              (fun q => { q with is_activated := true })) name
            (fun q => { q with is_activated := false })) pix) name = false := by
      rw [isActive_removeTemplates, isActive_upd_act _ _ _ hactT]
      simp
    cases hR : p.routeRaises with
    | true =>
      refine ⟨"route", _, ?_, hinact⟩
      simp [_activate_plugin, hp, hact, hA, hR, hdeact]
    | false =>
      have hC : p.connectRaises = true := by
        rcases hraise with h | h | h
        · rw [hA] at h
          exact absurd h (by simp)
        · rw [hR] at h
          exact absurd h (by simp)
        · exact h
      refine ⟨"callback_connect", _, ?_, hinact⟩
      simp [_activate_plugin, hp, hact, hA, hR, hC, hdeact]

/-! Entry-point characterizations of `activate_plugin`. -/

theorem activate_plugin_already_active {env : Env} {fuel : Nat} {st : Manager}
    {name : String} {p : BotPlugin}
    (hp : lookupPlugin st name = some p) (hact : p.is_activated = true) :
    activate_plugin env fuel st name = .error (.alreadyActive name, st) := by
  simp [activate_plugin, hp, hact, wrapActivationError, isPAE]

theorem activate_plugin_python_skip {env : Env} {fuel : Nat} {st : Manager}
    {name : String} {p : BotPlugin} {pi : PluginInfo}
    (hp : lookupPlugin st name = some p) (hact : p.is_activated = false)
    (hpi : lookupInfo st name = some pi)
    (hgate : check_python_plug_section env.sys_version pi = false) :
    activate_plugin env fuel st name = .ok st := by
  simp [activate_plugin, hp, hact, hpi, hgate]

theorem check_python_plug_section_false {sys_version : Version} {pi : PluginInfo}
    {v : Version} (hv : pi.python_version = some v)
    (h : verLt v (3, 0, 0) = true ∨ verLt v sys_version = false) :
    check_python_plug_section sys_version pi = false := by
  unfold check_python_plug_section
  rw [hv]
  show (if verLt v (3, 0, 0) = true then false
    else if (!verLt v sys_version) = true then false else true) = false
  cases hb : verLt v (3, 0, 0) with
  | true => rfl
  | false =>
    rcases h with h | h
    · rw [hb] at h
      cases h
    · rw [h]
      rfl

/-- C3 (corrected claim): both interpreter-gate failures are *non-fatal
skips*, not raised errors: for a plugin whose declared interpreter version is
python-2-only, or one declaring a required version at least as new as the
running interpreter, `activate_plugin` logs guidance and returns `None`
without raising, leaving the registry state unchanged and the plugin
inactive. -/
theorem c3_python_gate_skips (env : Env) (fuel : Nat) (st : Manager) (name : String)
    (p : BotPlugin) (pi : PluginInfo)
    (hp : lookupPlugin st name = some p) (hact : p.is_activated = false)
    (hpi : lookupInfo st name = some pi)
    (hver : ∃ v, pi.python_version = some v ∧
      (verLt v (3, 0, 0) = true ∨ verLt v env.sys_version = false)) :
    activate_plugin env fuel st name = .ok st ∧ isActive st name = false := by
  obtain ⟨v, hv, hcase⟩ := hver
  refine ⟨activate_plugin_python_skip hp hact hpi
    (check_python_plug_section_false hv hcase), ?_⟩
  simp [isActive, hp, hact]

/-- Witness for C3: a concrete python-2-only plugin is skipped without an
exception. -/
theorem c3_witness :
    activate_plugin stdEnv 1 py2St "P" = .ok py2St ∧ isActive py2St "P" = false :=
  c3_python_gate_skips stdEnv 1 py2St "P" (basePlugin "P")
    { baseInfo "P" [] with python_version := some (2, 7, 0) }
    (by decide) (by decide) (by decide) ⟨(2, 7, 0), by decide, Or.inl (by decide)⟩

/-- Counterexample for C3 as stated: the claim calls the python-2-only case a
"hard failure raised with guidance to the caller", but on a concrete
python-2-only plugin `activate_plugin` raises nothing — it returns normally
(`None` in the source) with the plugin still inactive; and the
"satisfied-but-too-new" case behaves identically. -/
theorem c3_counterexample :
    activate_plugin stdEnv 1 py2St "P" = .ok py2St ∧
    isActive py2St "P" = false ∧
    activate_plugin stdEnv 1 tooNewSt "P" = .ok tooNewSt := by
  exact ⟨by decide, by decide, by decide⟩

/-- C4 (corrected claim): activating an already-activated plugin raises the
already-active `PluginActivationException` and leaves the state untouched,
but deactivating an already-inactive plugin does *not* raise: it logs a
warning and returns silently, also leaving the state untouched. -/
theorem c4_already_in_state :
    (∀ (env : Env) (fuel : Nat) (st : Manager) (name : String) (p : BotPlugin),
      lookupPlugin st name = some p → p.is_activated = true →
        activate_plugin env fuel st name = .error (.alreadyActive name, st)) ∧
    (∀ (st : Manager) (name : String) (p : BotPlugin),
      lookupPlugin st name = some p → p.is_activated = false →
        deactivate_plugin st name = .ok st) := by
  constructor
  · intro env fuel st name p hp hact
    exact activate_plugin_already_active hp hact
  · intro st name p hp hact
    exact deactivate_plugin_inactive hp hact

/-- Witness for C4 at concrete states: an activated plugin rejects a second
activation; an inactive plugin accepts a (silent) deactivation. -/
theorem c4_witness :
    activate_plugin stdEnv 1 singleActiveSt "P" = .error (.alreadyActive "P", singleActiveSt) ∧
    deactivate_plugin singleSt "P" = .ok singleSt :=
  ⟨c4_already_in_state.1 stdEnv 1 singleActiveSt "P"
      { basePlugin "P" with is_activated := true } (by decide) (by decide),
    c4_already_in_state.2 singleSt "P" (basePlugin "P") (by decide) (by decide)⟩

/-- Counterexample for C4 as stated: the claim says deactivating an
already-inactive plugin "raises an already-in-state error rather than
returning silently"; on a concrete inactive plugin the call returns `.ok`
with no exception. -/
theorem c4_counterexample :
    deactivate_plugin singleSt "P" = .ok singleSt ∧
    runError (deactivate_plugin singleSt "P") = none := by
  exact ⟨by decide, by decide⟩

theorem activate_plugin_version_error {env : Env} {fuel : Nat} {st : Manager}
    {name : String} {p : BotPlugin} {pi : PluginInfo} {e : PluginError}
    (hp : lookupPlugin st name = some p) (hact : p.is_activated = false)
    (hpi : lookupInfo st name = some pi)
    (hpy : check_python_plug_section env.sys_version pi = true)
    (hv : check_errbot_version env pi = some e) (hpae : isPAE e = true) :
    activate_plugin env fuel st name = .error (e, st) := by
  simp [activate_plugin, hp, hact, hpi, hpy, hv, wrapActivationError, hpae]

/-- C8 (confirmed): a declared host minimum version above the running host
version, or a declared host maximum version below it, makes
`activate_plugin` raise an `IncompatiblePluginException` whose message
spells out the offending bound, with the state at the raise exactly the
input state — so no lifecycle hook of the plugin ran. -/
theorem c8_host_version_gate (env : Env) (fuel : Nat) (st : Manager) (name : String)
    (p : BotPlugin) (pi : PluginInfo)
    (hp : lookupPlugin st name = some p) (hact : p.is_activated = false)
    (hpi : lookupInfo st name = some pi)
    (hpy : check_python_plug_section env.sys_version pi = true) :
    (∀ mn, pi.errbot_minversion = some mn → verLt env.errbot_version mn = true →
      activate_plugin env fuel st name =
        .error (.incompatibleMin pi.name mn env.errbot_version_str, st) ∧
      render (.incompatibleMin pi.name mn env.errbot_version_str) =
        ("The plugin " ++ pi.name ++ " asks for Errbot with a minimal version of ") ++
          pyTupleStr mn ++ (" while Errbot is version " ++ env.errbot_version_str)) ∧
    (∀ mx, pi.errbot_maxversion = some mx → verLt mx env.errbot_version = true →
      (∀ mn, pi.errbot_minversion = some mn → verLt env.errbot_version mn = false) →
      activate_plugin env fuel st name =
        .error (.incompatibleMax pi.name mx env.errbot_version_str, st) ∧
      render (.incompatibleMax pi.name mx env.errbot_version_str) =
        ("The plugin " ++ pi.name ++ " asks for Errbot with a maximum version of ") ++
          pyTupleStr mx ++ (" while Errbot is version " ++ env.errbot_version_str)) := by
  constructor
  · intro mn hmn hlt
    refine ⟨?_, by simp [render, String.append_assoc]⟩
    refine activate_plugin_version_error hp hact hpi hpy ?_ rfl
    simp [check_errbot_version, hmn, hlt]
  · intro mx hmx hlt hminok
    refine ⟨?_, by simp [render, String.append_assoc]⟩
    refine activate_plugin_version_error hp hact hpi hpy ?_ rfl
    cases hmn : pi.errbot_minversion with
    | none => simp [check_errbot_version, hmn, hmx, hlt]
    | some mn => simp [check_errbot_version, hmn, hmx, hlt, hminok mn hmn]

/-- Witness for C8: the concrete plugin `P3` declaring a host maximum version
`(4, 0, 0)` below the running `6.1.7` is rejected with the max-bound message
and the state at the raise is the input state. -/
theorem c8_witness :
    activate_plugin stdEnv 1 maxVersionSt "P3" =
      .error (.incompatibleMax "P3" (4, 0, 0) "6.1.7", maxVersionSt) :=
  ((c8_host_version_gate stdEnv 1 maxVersionSt "P3" (basePlugin "P3")
      { baseInfo "P3" [] with errbot_maxversion := some (4, 0, 0) }
      (by decide) (by decide) (by decide) (by decide)).2
    (4, 0, 0) (by decide) (by decide) (by intro mn hmn; cases hmn)).1

/-- C7 (confirmed): an exception raised in the activation phase of
`_activate_plugin` (here: the `activate` hook, the web-route registration or
the `callback_connect` hook — the template and doc steps of the embedding
cannot raise) makes the engine call `deactivate_plugin` on that same plugin
and re-raise, so the plugin is not activated in the state carried by the
raised error. -/
theorem c7_activation_failure_cleanup (st : Manager) (name : String) (p : BotPlugin)
    (pi : PluginInfo)
    (hp : lookupPlugin st name = some p) (hact : p.is_activated = false)
    (hpi : (lookupInfo st name).isSome = true)
    (hraise : p.activateRaises = true ∨ p.routeRaises = true ∨ p.connectRaises = true) :
    ∃ phase st', _activate_plugin st name pi = .error (.hookError name phase, st') ∧
      isActive st' name = false :=
  _activate_plugin_hookfail pi hp hact hpi hraise

/-- Witness for C7: a concrete plugin whose `activate` hook raises ends up
deactivated, with the hook error re-raised. -/
theorem c7_witness :
    ∃ phase st',
      _activate_plugin hookFailSt "P" (baseInfo "P" []) =
        .error (.hookError "P" phase, st') ∧
      isActive st' "P" = false :=
  c7_activation_failure_cleanup hookFailSt "P"
    { basePlugin "P" with activateRaises := true } (baseInfo "P" [])
    (by decide) (by decide) (by decide) (Or.inl (by decide))


/-! The ordered broadcast list. -/

theorem mem_normalizedOrder {st : Manager} {n : String}
    (h : (some n) ∈ normalizedOrder st) : (some n) ∈ st.plugins_callback_order := by
  unfold normalizedOrder at h
  by_cases hw : (none : Option String) ∈ st.plugins_callback_order
  · rw [if_pos hw] at h
    exact h
  · rw [if_neg hw] at h
    rcases List.mem_append.mp h with h | h
    · exact h
    · simp at h

theorem mem_normalizedOrder_of_mem {st : Manager} {e : Option String}
    (h : e ∈ st.plugins_callback_order) : e ∈ normalizedOrder st := by
  unfold normalizedOrder
  by_cases hw : (none : Option String) ∈ st.plugins_callback_order
  · rw [if_pos hw]
    exact h
  · rw [if_neg hw]
    exact List.mem_append.mpr (Or.inl h)

theorem orderNamesKnown_lookup {st : Manager} (h : orderNamesKnown st = true)
    {n : String} (hn : (some n) ∈ st.plugins_callback_order) :
    (lookupPlugin st n).isSome = true := by
  unfold orderNamesKnown at h
  exact List.all_eq_true.mp h (some n) hn

theorem orderedLoop_spec (st : Manager) (fullOrder : List (Option String)) :
    ∀ rest : List (Option String),
      (∀ n, (some n) ∈ rest → (lookupPlugin st n).isSome = true) →
      orderedLoop st fullOrder rest =
        .ok ((rest.map (fun entry =>
          match entry with
          | none =>
            (st.plugins.filter
              (fun kp => !decide ((some kp.1) ∈ fullOrder) && kp.2.is_activated)).map Prod.snd
          | some n =>
            match lookupPlugin st n with
            | some p => if p.is_activated then [p] else []
            | none => [])).foldr (fun a b => a ++ b) []) := by
  intro rest
  induction rest with
  | nil => intro _; rfl
  | cons hd tl ih =>
    intro hknown
    have htl : ∀ n, (some n) ∈ tl → (lookupPlugin st n).isSome = true := by
      intro n hn
      exact hknown n (List.mem_cons_of_mem _ hn)
    cases hd with
    | none =>
      show (match orderedLoop st fullOrder tl with
        | .ok l => Except.ok (_ ++ l)
        | .error e => Except.error e) = _
      rw [ih htl]
      simp
    | some m =>
      have hm : (lookupPlugin st m).isSome = true :=
        hknown m (List.mem_cons_self _ _)
      obtain ⟨p, hp⟩ := Option.isSome_iff_exists.mp hm
      show (match lookupPlugin st m with
        | none => Except.error (PluginError.keyError m)
        | some plugin =>
          match orderedLoop st fullOrder tl with
          | .ok l => Except.ok (if plugin.is_activated then plugin :: l else l)
          | .error e => Except.error e) = _
      rw [hp, ih htl]
      cases hb : p.is_activated <;> simp [hp, hb]

theorem orderedLoop_keyerror (st : Manager) (fullOrder : List (Option String)) :
    ∀ rest : List (Option String),
      (∃ n, (some n) ∈ rest ∧ lookupPlugin st n = none) →
      ∃ k, orderedLoop st fullOrder rest = .error (.keyError k) := by
  intro rest
  induction rest with
  | nil =>
    rintro ⟨n, hn, -⟩
    cases hn
  | cons hd tl ih =>
    rintro ⟨n, hn, hnone⟩
    cases hd with
    | none =>
      have hn' : (some n) ∈ tl := by
        rcases List.mem_cons.mp hn with h | h
        · cases h
        · exact h
      obtain ⟨k, hk⟩ := ih ⟨n, hn', hnone⟩
      refine ⟨k, ?_⟩
      show (match orderedLoop st fullOrder tl with
        | .ok l => Except.ok (_ ++ l)
        | .error e => Except.error e) = _
      rw [hk]
    | some m =>
      cases hm : lookupPlugin st m with
      | none =>
        refine ⟨m, ?_⟩
        show (match lookupPlugin st m with
          | none => Except.error (PluginError.keyError m)
          | some plugin =>
            match orderedLoop st fullOrder tl with
            | .ok l => Except.ok (if plugin.is_activated then plugin :: l else l)
            | .error e => Except.error e) = _
        rw [hm]
      | some p =>
        have hn' : (some n) ∈ tl := by
          rcases List.mem_cons.mp hn with h | h
          · cases h
            rw [hnone] at hm
            cases hm
          · exact h
        obtain ⟨k, hk⟩ := ih ⟨n, hn', hnone⟩
        refine ⟨k, ?_⟩
        show (match lookupPlugin st m with
          | none => Except.error (PluginError.keyError m)
          | some plugin =>
            match orderedLoop st fullOrder tl with
            | .ok l => Except.ok (if plugin.is_activated then plugin :: l else l)
            | .error e => Except.error e) = _
        rw [hm, hk]

/-- C5 (confirmed): whenever every name in the ordering spec resolves in the
plugin registry, `get_all_active_plugin_objects_ordered` returns exactly the
list described by the spec — explicitly named activated plugins first in
spec order (named but inactive plugins skipped), with every activated plugin
not named in the spec spliced in at the wildcard position in registry order,
the wildcard being appended at the end when absent; and on the concrete
scenario with spec `["B", wildcard, "A"]` and activated registry `A, B, C`
the result is `[B, C, A]`. -/
theorem c5_ordered_broadcast :
    (∀ st : Manager, orderNamesKnown st = true →
      get_all_active_plugin_objects_ordered st = .ok (orderedActiveSpec st)) ∧
    (get_all_active_plugin_objects_ordered orderedSt).map (fun l => l.map BotPlugin.name) =
      .ok ["B", "C", "A"] := by
  constructor
  · intro st hknown
    show orderedLoop st (normalizedOrder st) (normalizedOrder st) = _
    rw [orderedLoop_spec st (normalizedOrder st) (normalizedOrder st)
      (fun n hn => orderNamesKnown_lookup hknown (mem_normalizedOrder hn))]
    rfl
  · decide

/-- Witness for C5: the general refinement applied to the concrete scenario
registry. -/
theorem c5_witness :
    get_all_active_plugin_objects_ordered orderedSt = .ok (orderedActiveSpec orderedSt) :=
  c5_ordered_broadcast.1 orderedSt (by decide)

/-- C10 (confirmed): a non-wildcard name in the ordering spec that is not a
key of the plugin registry makes `get_all_active_plugin_objects_ordered`
raise an uncaught `KeyError` instead of silently omitting the entry the way
a named-but-inactive plugin is omitted. -/
theorem c10_unknown_name_keyerror (st : Manager) (n : String)
    (hmem : (some n) ∈ st.plugins_callback_order)
    (hnone : lookupPlugin st n = none) :
    ∃ k, get_all_active_plugin_objects_ordered st = .error (.keyError k) :=
  orderedLoop_keyerror st (normalizedOrder st) (normalizedOrder st)
    ⟨n, mem_normalizedOrder_of_mem hmem, hnone⟩

/-- Witness for C10: the ordering spec naming the unregistered `Z` makes the
concrete run raise a `KeyError`. -/
theorem c10_witness :
    ∃ k, get_all_active_plugin_objects_ordered orderedBadSt = .error (.keyError k) :=
  c10_unknown_name_keyerror orderedBadSt "Z" (by decide) (by decide)

/-! Activation when every declared dependency is already active (the
situation of a hot reload), and the hot-reload theorem. -/

theorem depLoop_all_active (rec : Manager → List String → String → DepsResult)
    (st : Manager) (track : List String) :
    ∀ ds : List String,
      (∀ d ∈ ds, d ∉ track ∧ isActive st d = true ∧ (lookupInfo st d).isSome = true) →
      depLoop rec ds st track = .ok (st, track) := by
  intro ds
  induction ds with
  | nil => intro _; rfl
  | cons dep rest ih =>
    intro h
    obtain ⟨hnt, hactv, hinfo⟩ := h dep (List.mem_cons_self _ _)
    have hrest : ∀ d ∈ rest, d ∉ track ∧ isActive st d = true ∧ (lookupInfo st d).isSome = true :=
      fun d hd => h d (List.mem_cons_of_mem _ hd)
    obtain ⟨p, hp, hpact⟩ : ∃ p, lookupPlugin st dep = some p ∧ p.is_activated = true := by
      unfold isActive at hactv
      cases hlp : lookupPlugin st dep with
      | none => rw [hlp] at hactv; cases hactv
      | some p => rw [hlp] at hactv; exact ⟨p, rfl, hactv⟩
    obtain ⟨pix, hpix⟩ := Option.isSome_iff_exists.mp hinfo
    simp only [depLoop, if_neg hnt, hp, hpix, hpact, if_true]
    exact ih hrest

theorem deps_result_all_active (f : Nat) {st : Manager} {name : String} {pi : PluginInfo}
    (hpi : lookupInfo st name = some pi)
    (hdeps : ∀ d ∈ pi.dependencies,
      d ≠ name ∧ isActive st d = true ∧ (lookupInfo st d).isSome = true) :
    _activate_plugin_dependencies (f + 1) st [] name = .ok (pi.dependencies, st, [name]) := by
  have hsetAdd : setAdd [] name = [name] := by simp [setAdd]
  have hloop : depLoop (fun st tr d => _activate_plugin_dependencies f st tr d)
      pi.dependencies st [name] = .ok (st, [name]) := by
    refine depLoop_all_active _ st [name] pi.dependencies ?_
    intro d hd
    obtain ⟨hne, hactv, hinfo⟩ := hdeps d hd
    exact ⟨by simp [hne], hactv, hinfo⟩
  simp only [_activate_plugin_dependencies, hpi, hsetAdd, hloop]

theorem activate_plugin_ok_active_deps {env : Env} {fuel : Nat} {st : Manager}
    {name : String} {p : BotPlugin} {pi : PluginInfo}
    (hp : lookupPlugin st name = some p) (hact : p.is_activated = false)
    (hpi : lookupInfo st name = some pi)
    (hpy : check_python_plug_section env.sys_version pi = true)
    (hev : check_errbot_version env pi = none)
    (h1 : p.activateRaises = false) (h2 : p.routeRaises = false)
    (h3 : p.connectRaises = false)
    (hdeps : ∀ d ∈ pi.dependencies,
      d ≠ name ∧ isActive st d = true ∧ (lookupInfo st d).isSome = true)
    (hfuel : 0 < fuel) :
    ∃ st', activate_plugin env fuel st name = .ok st' ∧
      isActive st' name = true ∧
      (∃ q, lookupPlugin st' name = some q ∧ q.attrs = p.attrs ∧
        q.className = p.className ∧ q.dependencies = some pi.dependencies) ∧
      (∀ k, k ≠ name → isActive st' k = isActive st k) := by
  obtain ⟨f, rfl⟩ : ∃ f, fuel = f + 1 := ⟨fuel - 1, by omega⟩
  have hdres := deps_result_all_active f hpi hdeps
  have hp1 : lookupPlugin
      (updPlugin st name (fun r => { r with dependencies := some pi.dependencies })) name =
      some { p with dependencies := some pi.dependencies } := by
    rw [lookupPlugin_updPlugin]
    simp [hp]
  obtain ⟨st2, hrun2, hframe2, hact2⟩ :=
    _activate_plugin_ok_spec pi hp1 (by simpa using hact) (by simpa using h1)
      (by simpa using h2) (by simpa using h3)
  refine ⟨st2, ?_, ?_, ?_, ?_⟩
  · simp only [activate_plugin, hp, hact, hpi, hpy, hev, hdres, hrun2]
    rfl
  · rw [hact2 name]
    simp
  · obtain ⟨q, hq, hcore⟩ := hframe2.2.2.2.2.2.2.2 name _ hp1
    exact ⟨q, hq, hcore.2.2.2.2.1, hcore.2.2.1, hcore.2.2.2.1⟩
  · intro k hk
    rw [hact2 k, if_neg hk, isActive_upd_deps]

/-- C9 (confirmed): hot-reloading an activated plugin whose reloaded module
still defines a class of the same name deactivates it, rebinds the same live
instance (its runtime attributes and class name unchanged — Python's
`plugin.__class__` assignment preserves the instance dictionary) and
reactivates it, ending with `is_activated` true.  The plugin's declared
dependencies are assumed active (they were activated along with it) and its
hooks non-raising. -/
theorem c9_hot_reload (env : Env) (fuel : Nat) (disk : String → List String)
    (st : Manager) (name : String) (p : BotPlugin) (pi : PluginInfo)
    (hp : lookupPlugin st name = some p) (hact : p.is_activated = true)
    (hpi : lookupInfo st name = some pi)
    (hcls : p.className ∈ disk p.module)
    (hpy : check_python_plug_section env.sys_version pi = true)
    (hev : check_errbot_version env pi = none)
    (h1 : p.activateRaises = false) (h2 : p.routeRaises = false)
    (h3 : p.connectRaises = false)
    (hdeps : ∀ d ∈ pi.dependencies,
      d ≠ name ∧ isActive st d = true ∧ (lookupInfo st d).isSome = true)
    (hfuel : 0 < fuel) :
    ∃ st' q, reload_plugin_by_name env fuel disk st name = .ok st' ∧
      lookupPlugin st' name = some q ∧ q.is_activated = true ∧
      q.attrs = p.attrs ∧ q.className = p.className := by
  have hdeact := deactivate_plugin_active hp hact hpi
  have hpD : lookupPlugin
      (removeTemplatesPath
        (updPlugin st name (fun q => { q with is_activated := false })) pi) name =
      some { p with is_activated := false } := by
    rw [lookupPlugin_removeTemplates, lookupPlugin_updPlugin]
    simp [hp]
  have hpiD : lookupInfo
      (removeTemplatesPath
        (updPlugin st name (fun q => { q with is_activated := false })) pi) name =
      some pi := hpi
  have hdepsD : ∀ d ∈ pi.dependencies,
      d ≠ name ∧ isActive
        (removeTemplatesPath
          (updPlugin st name (fun q => { q with is_activated := false })) pi) d = true ∧
      (lookupInfo
        (removeTemplatesPath
          (updPlugin st name (fun q => { q with is_activated := false })) pi) d).isSome = true := by
    intro d hd
    obtain ⟨hne, hactv, hinfo⟩ := hdeps d hd
    refine ⟨hne, ?_, hinfo⟩
    rw [isActive_removeTemplates, isActive_upd_act _ _ _ hp, if_neg hne]
    exact hactv
  obtain ⟨st2, hrun, hact2, ⟨q, hq, hqa, hqc, hqd⟩, hrest⟩ :=
    activate_plugin_ok_active_deps hpD (by simp) hpiD hpy hev
      (by simpa using h1) (by simpa using h2) (by simpa using h3) hdepsD hfuel
  refine ⟨st2, q, ?_, hq, ?_, by simpa using hqa, by simpa using hqc⟩
  · simp only [reload_plugin_by_name, hp, hact, hdeact, if_true, hcls, if_pos hcls]
    exact hrun
  · unfold isActive at hact2
    rw [hq] at hact2
    exact hact2

/-- Witness for C9: the concrete activated plugin `R`, whose module still
defines `ClsR` on disk, reloads to an activated instance with its runtime
attribute `x = 42` intact. -/
theorem c9_witness :
    ∃ st' q, reload_plugin_by_name stdEnv 1 reloadDisk reloadSt "R" = .ok st' ∧
      lookupPlugin st' "R" = some q ∧ q.is_activated = true ∧
      q.attrs = [("x", "42")] ∧ q.className = "ClsR" :=
  c9_hot_reload stdEnv 1 reloadDisk reloadSt "R"
    { basePlugin "R" with is_activated := true, attrs := [("x", "42")] }
    (baseInfo "R" []) (by decide) (by decide) (by decide) (by decide) (by decide)
    (by decide) (by decide) (by decide) (by decide) (by decide) (by decide)

/-! Tracking-set and fuel-measure lemmas. -/

theorem mem_setAdd {track : List String} {n q : String} :
    q ∈ setAdd track n ↔ q ∈ track ∨ q = n := by
  unfold setAdd
  by_cases h : n ∈ track
  · rw [if_pos h]
    constructor
    · exact Or.inl
    · rintro (hq | rfl)
      · exact hq
      · exact h
  · rw [if_neg h]
    simp

theorem mem_setAdd_self (track : List String) (n : String) : n ∈ setAdd track n :=
  mem_setAdd.mpr (Or.inr rfl)

theorem mem_setAdd_of_mem {track : List String} {q : String} (n : String)
    (h : q ∈ track) : q ∈ setAdd track n :=
  mem_setAdd.mpr (Or.inl h)

theorem length_filter_ne_lt {l : List String} {x : String} (hx : x ∈ l) :
    (l.filter (fun y => !decide (y = x))).length < l.length := by
  induction l with
  | nil => cases hx
  | cons a t ih =>
    by_cases hax : a = x
    · subst hax
      rw [List.filter_cons_of_neg (by simp)]
      calc (t.filter (fun y => !decide (y = a))).length ≤ t.length :=
            List.length_filter_le _ t
        _ < (a :: t).length := by simp
    · rcases List.mem_cons.mp hx with h | h
      · exact absurd h.symm hax
      · rw [List.filter_cons_of_pos (by simp [hax])]
        simpa using ih h

theorem fuelMeasure_keys_eq {st st' : Manager} (h : pluginKeys st' = pluginKeys st)
    (track : List String) : fuelMeasure st' track = fuelMeasure st track := by
  unfold fuelMeasure
  rw [h]

theorem fuelMeasure_mono (st : Manager) {t1 t2 : List String}
    (h : ∀ x ∈ t1, x ∈ t2) : fuelMeasure st t2 ≤ fuelMeasure st t1 := by
  unfold fuelMeasure
  refine List.Sublist.length_le (List.monotone_filter_right _ ?_)
  intro a ha
  simp only [Bool.not_eq_true', decide_eq_false_iff_not] at ha ⊢
  exact fun hmem => ha (h a hmem)

theorem fuelMeasure_setAdd_lt {st : Manager} {track : List String} {n : String}
    (hmem : n ∈ pluginKeys st) (hnt : n ∉ track) :
    fuelMeasure st (setAdd track n) < fuelMeasure st track := by
  unfold fuelMeasure
  have hsplit : (pluginKeys st).filter (fun k => !decide (k ∈ setAdd track n)) =
      ((pluginKeys st).filter (fun k => !decide (k ∈ track))).filter
        (fun k => !decide (k = n)) := by
    rw [List.filter_filter]
    refine List.filter_congr ?_
    intro a _
    by_cases h1 : a ∈ setAdd track n
    · rcases mem_setAdd.mp h1 with h | h
      · simp [h1, h]
      · simp [h1, h, mem_setAdd_self track n]
    · have h2 : a ∉ track := fun hc => h1 (mem_setAdd_of_mem n hc)
      have h3 : ¬(a = n) := fun hc => h1 (hc ▸ mem_setAdd_self track n)
      simp [h1, h2, h3]
  rw [hsplit]
  refine length_filter_ne_lt ?_
  rw [List.mem_filter]
  exact ⟨hmem, by simp [hnt]⟩

/-! Reachability and cycle-freedom lemmas over the descriptor graph. -/

theorem cycleFree_not_onCycle {G : List (String × PluginInfo)} {m : String}
    (h : CycleFree G m) : ¬ OnCycle G m :=
  h m Relation.ReflTransGen.refl

theorem cycleFree_dep {G : List (String × PluginInfo)} {a b : String}
    (h : CycleFree G a) (hab : DepEdge G a b) : CycleFree G b := by
  intro v hv
  exact h v (Relation.ReflTransGen.head hab hv)

theorem cycleFree_of_deps {G : List (String × PluginInfo)} {name : String}
    (h : ∀ d ∈ infoDeps G name, CycleFree G d) : CycleFree G name := by
  intro v hv hcyc
  rcases Relation.ReflTransGen.cases_head hv with heq | ⟨c, hc, hcv⟩
  · subst heq
    rcases Relation.TransGen.head'_iff.mp hcyc with ⟨b, hb, hbv⟩
    exact h b hb _ hbv hcyc
  · exact h c hc v hcv hcyc

/-! The dependency recursion under a well-formed registry with non-raising
hooks: every failure is a cycle error, success implies no reachable cycle,
and plugins in the tracking set never change activation state. -/

theorem WFM_transfer {st st' : Manager} (hf : innerFrame st st') (h : WFM st) : WFM st' := by
  obtain ⟨hinfos, -, -, -, -, -, hkeys, -⟩ := hf
  refine ⟨?_, ?_, ?_⟩
  · intro n hn
    rw [hkeys] at hn
    show (st'.plugin_infos.lookup n).isSome = true
    rw [hinfos]
    exact h.1 n hn
  · intro e he d hd
    rw [hinfos] at he
    rw [hkeys]
    exact h.2.1 e he d hd
  · rw [hkeys]
    exact h.2.2

theorem deps_succ (f : Nat) (st : Manager) (track : List String) (name : String) :
    _activate_plugin_dependencies (f + 1) st track name =
      match lookupInfo st name with
      | none => .error (.keyError name, st)
      | some pi =>
        match depLoop (fun st tr d => _activate_plugin_dependencies f st tr d)
            pi.dependencies st (setAdd track name) with
        | .error e => .error e
        | .ok (st2, track2) => .ok (pi.dependencies, st2, track2) := rfl

theorem lookupPlugin_isSome_iff {st : Manager} {k : String} :
    (lookupPlugin st k).isSome = true ↔ k ∈ pluginKeys st :=
  lookup_isSome_iff_mem st.plugins k

theorem depLoop_cycle
    (G : List (String × PluginInfo)) (f : Nat)
    (ihf : ∀ st track name, st.plugin_infos = G → WFM st → NoHookRaises st →
      (∀ k, isActive st k = true → CycleFree G k) →
      name ∈ pluginKeys st → name ∉ track → fuelMeasure st track < f →
      (∃ ch st', _activate_plugin_dependencies f st track name =
          .error (.circularDependency ch, st') ∧
        (∀ x ∈ setAdd track name, x ∈ ch) ∧
        innerFrame st st' ∧
        (∀ q ∈ setAdd track name, isActive st' q = isActive st q) ∧
        (∀ k, isActive st' k = true → isActive st k = true ∨ CycleFree G k)) ∨
      (∃ st' track', _activate_plugin_dependencies f st track name =
          .ok (infoDeps G name, st', track') ∧
        CycleFree G name ∧
        innerFrame st st' ∧
        (∀ q ∈ setAdd track name, isActive st' q = isActive st q) ∧
        (∀ k, isActive st' k = true → isActive st k = true ∨ CycleFree G k) ∧
        (∀ x ∈ setAdd track name, x ∈ track') ∧
        (∀ x ∈ track', x ∈ track ∨ x ∈ pluginKeys st)))
    (st0 : Manager) (track1 : List String)
    (hwf0 : WFM st0) (hnr0 : NoHookRaises st0)
    (hsafe0 : ∀ k, isActive st0 k = true → CycleFree G k)
    (hfm : fuelMeasure st0 track1 < f) :
    ∀ (ds : List String) (stc : Manager) (trackc : List String),
      stc.plugin_infos = G →
      (∀ d ∈ ds, d ∈ pluginKeys st0) →
      innerFrame st0 stc →
      (∀ q ∈ track1, isActive stc q = isActive st0 q) →
      (∀ k, isActive stc k = true → isActive st0 k = true ∨ CycleFree G k) →
      (∀ x ∈ track1, x ∈ trackc) →
      (∀ x ∈ trackc, x ∈ track1 ∨ x ∈ pluginKeys st0) →
      (∃ ch st',
        depLoop (fun st tr d => _activate_plugin_dependencies f st tr d) ds stc trackc =
          .error (.circularDependency ch, st') ∧
        (∀ x ∈ trackc, x ∈ ch) ∧
        innerFrame st0 st' ∧
        (∀ q ∈ track1, isActive st' q = isActive st0 q) ∧
        (∀ k, isActive st' k = true → isActive st0 k = true ∨ CycleFree G k)) ∨
      (∃ st' track',
        depLoop (fun st tr d => _activate_plugin_dependencies f st tr d) ds stc trackc =
          .ok (st', track') ∧
        (∀ d ∈ ds, CycleFree G d) ∧
        innerFrame st0 st' ∧
        (∀ q ∈ track1, isActive st' q = isActive st0 q) ∧
        (∀ k, isActive st' k = true → isActive st0 k = true ∨ CycleFree G k) ∧
        (∀ x ∈ trackc, x ∈ track') ∧
        (∀ x ∈ track', x ∈ track1 ∨ x ∈ pluginKeys st0)) := by
  intro ds
  induction ds with
  | nil =>
    intro stc trackc hinfc hdss hfrc hpresc hsafec htrc1 htrc2
    refine Or.inr ⟨stc, trackc, rfl, ?_, hfrc, hpresc, hsafec, fun x h => h, htrc2⟩
    intro d hd
    cases hd
  | cons d ds ihds =>
    intro stc trackc hinfc hdss hfrc hpresc hsafec htrc1 htrc2
    have hwfc : WFM stc := WFM_transfer hfrc hwf0
    have hnrc : NoHookRaises stc := NoHookRaises_of_innerFrame hfrc hnr0
    have hkeysc : pluginKeys stc = pluginKeys st0 := hfrc.2.2.2.2.2.2.1
    have hdk : d ∈ pluginKeys st0 := hdss d (List.mem_cons_self _ _)
    have hdss' : ∀ x ∈ ds, x ∈ pluginKeys st0 :=
      fun x hx => hdss x (List.mem_cons_of_mem _ hx)
    by_cases hdt : d ∈ trackc
    · -- cycle detected immediately
      refine Or.inl ⟨trackc, stc, ?_, fun x h => h, hfrc, hpresc, hsafec⟩
      simp only [depLoop, if_pos hdt]
    · -- d not tracked
      obtain ⟨dp, hdp⟩ : ∃ dp, lookupPlugin stc d = some dp := by
        refine Option.isSome_iff_exists.mp (lookupPlugin_isSome_iff.mpr ?_)
        rw [hkeysc]
        exact hdk
      obtain ⟨dpi, hdpi⟩ : ∃ dpi, lookupInfo stc d = some dpi := by
        refine Option.isSome_iff_exists.mp (hwfc.1 d ?_)
        rw [hkeysc]
        exact hdk
      cases hdact : dp.is_activated with
      | true =>
        -- already active: skipped; it is cycle-free by the activation invariant
        have hcf : CycleFree G d := by
          rcases hsafec d (by simp [isActive, hdp, hdact]) with h | h
          · exact hsafe0 d h
          · exact h
        have hrest := ihds stc trackc hinfc hdss' hfrc hpresc hsafec htrc1 htrc2
        have hstep : depLoop (fun st tr d => _activate_plugin_dependencies f st tr d)
            (d :: ds) stc trackc =
            depLoop (fun st tr d => _activate_plugin_dependencies f st tr d) ds stc trackc := by
          simp only [depLoop, if_neg hdt, hdp, hdpi, hdact, if_true]
        rcases hrest with ⟨ch, st', herr, hch, hfr', hpres', hsafe'⟩ | 
          ⟨st', track', hok, hcfs, hfr', hpres', hsafe', htr1', htr2'⟩
        · exact Or.inl ⟨ch, st', by rw [hstep, herr], hch, hfr', hpres', hsafe'⟩
        · refine Or.inr ⟨st', track', by rw [hstep, hok], ?_, hfr', hpres', hsafe', htr1', htr2'⟩
          intro x hx
          rcases List.mem_cons.mp hx with rfl | hx
          · exact hcf
          · exact hcfs x hx
      | false =>
        -- recurse into the inactive dependency
        have hfmc : fuelMeasure stc trackc < f := by
          have h1 : fuelMeasure stc trackc ≤ fuelMeasure stc track1 :=
            fuelMeasure_mono stc htrc1
          have h2 : fuelMeasure stc track1 = fuelMeasure st0 track1 :=
            fuelMeasure_keys_eq hkeysc track1
          omega
        have hsafec' : ∀ k, isActive stc k = true → CycleFree G k := by
          intro k hk
          rcases hsafec k hk with h | h
          · exact hsafe0 k h
          · exact h
        have hrec := ihf stc trackc d hinfc hwfc hnrc hsafec'
          (by rw [hkeysc]; exact hdk) hdt hfmc
        rcases hrec with ⟨ch, st2, herr, hch, hfr2, hpres2, hsafe2⟩ |
          ⟨st2, track2, hok, hcfd, hfr2, hpres2, hsafe2, htr2a, htr2b⟩
        · -- recursion raised the cycle error: propagate
          refine Or.inl ⟨ch, st2, ?_, ?_, innerFrame_trans hfrc hfr2, ?_, ?_⟩
          · simp [depLoop, if_neg hdt, hdp, hdpi, hdact, herr]
          · intro x hx
            exact hch x (mem_setAdd_of_mem d hx)
          · intro q hq
            rw [hpres2 q (mem_setAdd_of_mem d (htrc1 q hq))]
            exact hpresc q hq
          · intro k hk
            rcases hsafe2 k hk with h | h
            · exact hsafec k h
            · exact Or.inr h
        · -- recursion succeeded: activate the dependency and continue
          obtain ⟨q, hq, hcore⟩ := hfr2.2.2.2.2.2.2.2 d dp hdp
          have hqact : q.is_activated = false := by
            have hcur := hpres2 d (mem_setAdd_self trackc d)
            simp only [isActive, hq, hdp, hdact] at hcur
            exact hcur
          have hnr2 : NoHookRaises st2 :=
            NoHookRaises_of_innerFrame (innerFrame_trans hfrc hfr2) hnr0
          obtain ⟨hq1, hq2, hq3⟩ := hnr2 d q hq
          obtain ⟨st3, hrun3, hfr3, hact3⟩ := _activate_plugin_ok_spec dpi hq hqact hq1 hq2 hq3
          have hstep : depLoop (fun st tr d => _activate_plugin_dependencies f st tr d)
              (d :: ds) stc trackc =
              depLoop (fun st tr d => _activate_plugin_dependencies f st tr d) ds st3 track2 := by
            simp [depLoop, if_neg hdt, hdp, hdpi, hdact, hok, hrun3]
          have hfr03 : innerFrame st0 st3 :=
            innerFrame_trans (innerFrame_trans hfrc hfr2) hfr3
          have hinfc3 : st3.plugin_infos = G := by
            rw [hfr3.1, hfr2.1, hinfc]
          have hpres3 : ∀ x ∈ track1, isActive st3 x = isActive st0 x := by
            intro x hx
            have hxd : x ≠ d := fun hxd => hdt (hxd ▸ htrc1 x hx)
            rw [hact3 x, if_neg hxd, hpres2 x (mem_setAdd_of_mem d (htrc1 x hx)), hpresc x hx]
          have hsafe3 : ∀ k, isActive st3 k = true → isActive st0 k = true ∨ CycleFree G k := by
            intro k hk
            rw [hact3 k] at hk
            by_cases hkd : k = d
            · exact Or.inr (hkd ▸ hcfd)
            · rw [if_neg hkd] at hk
              rcases hsafe2 k hk with h | h
              · exact hsafec k h
              · exact Or.inr h
          have htrk3a : ∀ x ∈ track1, x ∈ track2 :=
            fun x hx => htr2a x (mem_setAdd_of_mem d (htrc1 x hx))
          have htrk3b : ∀ x ∈ track2, x ∈ track1 ∨ x ∈ pluginKeys st0 := by
            intro x hx
            rcases htr2b x hx with h | h
            · exact htrc2 x h
            · rw [hkeysc] at h
              exact Or.inr h
          have hrest := ihds st3 track2 hinfc3 hdss' hfr03 hpres3 hsafe3 htrk3a htrk3b
          have htrc2' : ∀ x ∈ trackc, x ∈ track2 :=
            fun x hx => htr2a x (mem_setAdd_of_mem d hx)
          rcases hrest with ⟨ch, st', herr, hch, hfr', hpres', hsafe'⟩ |
            ⟨st', track', hok', hcfs, hfr', hpres', hsafe', htr1', htr2'⟩
          · refine Or.inl ⟨ch, st', ?_, ?_, hfr', hpres', hsafe'⟩
            · rw [hstep, herr]
            · intro x hx
              exact hch x (htrc2' x hx)
          · refine Or.inr ⟨st', track', ?_, ?_, hfr', hpres', hsafe', ?_, htr2'⟩
            · rw [hstep, hok']
            · intro x hx
              rcases List.mem_cons.mp hx with rfl | hx
              · exact hcfd
              · exact hcfs x hx
            · intro x hx
              exact htr1' x (htrc2' x hx)

theorem deps_cycle (G : List (String × PluginInfo)) :
    ∀ (fuel : Nat) (st : Manager) (track : List String) (name : String),
      st.plugin_infos = G → WFM st → NoHookRaises st →
      (∀ k, isActive st k = true → CycleFree G k) →
      name ∈ pluginKeys st → name ∉ track → fuelMeasure st track < fuel →
      (∃ ch st', _activate_plugin_dependencies fuel st track name =
          .error (.circularDependency ch, st') ∧
        (∀ x ∈ setAdd track name, x ∈ ch) ∧
        innerFrame st st' ∧
        (∀ q ∈ setAdd track name, isActive st' q = isActive st q) ∧
        (∀ k, isActive st' k = true → isActive st k = true ∨ CycleFree G k)) ∨
      (∃ st' track', _activate_plugin_dependencies fuel st track name =
          .ok (infoDeps G name, st', track') ∧
        CycleFree G name ∧
        innerFrame st st' ∧
        (∀ q ∈ setAdd track name, isActive st' q = isActive st q) ∧
        (∀ k, isActive st' k = true → isActive st k = true ∨ CycleFree G k) ∧
        (∀ x ∈ setAdd track name, x ∈ track') ∧
        (∀ x ∈ track', x ∈ track ∨ x ∈ pluginKeys st)) := by
  intro fuel
  induction fuel with
  | zero =>
    intro st track name _ _ _ _ _ _ hfm
    omega
  | succ f ihf =>
    intro st track name hinf hwf hnr hsafe hmem hnt hfm
    obtain ⟨pi, hpi⟩ : ∃ pi, lookupInfo st name = some pi :=
      Option.isSome_iff_exists.mp (hwf.1 name hmem)
    have hpiG : List.lookup name G = some pi := by
      rw [← hinf]
      exact hpi
    have hdeps_eq : infoDeps G name = pi.dependencies := by
      simp [infoDeps, hpiG]
    have hdss : ∀ d ∈ pi.dependencies, d ∈ pluginKeys st := by
      intro d hd
      exact hwf.2.1 (name, pi) (mem_of_lookup_eq_some hpi) d hd
    have hfm1 : fuelMeasure st (setAdd track name) < f := by
      have := fuelMeasure_setAdd_lt hmem hnt
      omega
    have hstep : _activate_plugin_dependencies (f + 1) st track name =
        match depLoop (fun st tr d => _activate_plugin_dependencies f st tr d)
            pi.dependencies st (setAdd track name) with
        | .error e => .error e
        | .ok (st2, track2) => .ok (pi.dependencies, st2, track2) := by
      rw [deps_succ, hpi]
    have hloop := depLoop_cycle G f ihf st (setAdd track name) hwf hnr hsafe hfm1
      pi.dependencies st (setAdd track name) hinf hdss (innerFrame_refl st)
      (fun q _ => rfl) (fun k hk => Or.inl hk) (fun x h => h) (fun x h => Or.inl h)
    rcases hloop with ⟨ch, st', herr, hch, hfr, hpres, hsafe'⟩ |
      ⟨st', track', hok, hcfs, hfr, hpres, hsafe', htr1, htr2⟩
    · refine Or.inl ⟨ch, st', ?_, hch, hfr, hpres, hsafe'⟩
      rw [hstep, herr]
    · refine Or.inr ⟨st', track', ?_, ?_, hfr, hpres, hsafe', htr1, ?_⟩
      · rw [hstep, hok, hdeps_eq]
      · refine cycleFree_of_deps ?_
        rw [hdeps_eq]
        exact hcfs
      · intro x hx
        rcases htr2 x hx with h | h
        · rcases mem_setAdd.mp h with h' | h'
          · exact Or.inl h'
          · exact Or.inr (h' ▸ hmem)
        · exact Or.inr h

/-! From the recursion lemma to the claim about `activate_plugin`. -/

theorem allInactive_isActive {st : Manager}
    (h : ∀ e ∈ st.plugins, e.2.is_activated = false) (k : String) :
    isActive st k = false := by
  unfold isActive
  cases hlp : lookupPlugin st k with
  | none => rfl
  | some p => exact h (k, p) (mem_of_lookup_eq_some hlp)

theorem NoHookRaises_of_forall {st : Manager}
    (h : ∀ e ∈ st.plugins, e.2.activateRaises = false ∧ e.2.routeRaises = false ∧
      e.2.connectRaises = false) : NoHookRaises st :=
  fun k p hp => h (k, p) (mem_of_lookup_eq_some hp)

theorem fuelMeasure_nil_le (st : Manager) :
    fuelMeasure st [] ≤ (pluginKeys st).length :=
  List.length_filter_le _ _

theorem gatesPassB_spec {env : Env} {st : Manager} {n : String} {pi : PluginInfo}
    (h : gatesPassB env st n = true) (hpi : lookupInfo st n = some pi) :
    check_python_plug_section env.sys_version pi = true ∧
      check_errbot_version env pi = none := by
  unfold gatesPassB at h
  rw [hpi] at h
  simp only [Bool.and_eq_true, Option.isNone_iff_eq_none] at h
  exact h

theorem activate_plugin_deps_match {env : Env} {fuel : Nat} {st : Manager}
    {name : String} {p : BotPlugin} {pi : PluginInfo}
    (hp : lookupPlugin st name = some p) (hact : p.is_activated = false)
    (hpi : lookupInfo st name = some pi)
    (hpy : check_python_plug_section env.sys_version pi = true)
    (hev : check_errbot_version env pi = none) :
    activate_plugin env fuel st name =
      match _activate_plugin_dependencies fuel st [] name with
      | .error e => .error (wrapActivationError name e)
      | .ok (depends_on, st2, _) =>
        match _activate_plugin
            (updPlugin st2 name (fun q => { q with dependencies := some depends_on }))
            name pi with
        | .error e => .error (wrapActivationError name e)
        | .ok st3 => .ok st3 := by
  cases hdr : _activate_plugin_dependencies fuel st [] name with
  | error e => simp [activate_plugin, hp, hact, hpi, hpy, hev, hdr]
  | ok r =>
    obtain ⟨deps, st2, tr⟩ := r
    cases har : _activate_plugin
        (updPlugin st2 name (fun q => { q with dependencies := some deps })) name pi with
    | error e => simp [activate_plugin, hp, hact, hpi, hpy, hev, hdr, har]
    | ok st3 => simp [activate_plugin, hp, hact, hpi, hpy, hev, hdr, har]

/-- C2 (amended claim, part one) together with the concrete two-plugin
scenario (part two): in a well-formed registry whose plugins are all
inactive with non-raising hooks, when the target's gates pass and a
dependency cycle is reachable from the target, `activate_plugin` raises the
circular-dependency `PluginActivationException` whose chain lists the
visited plugins, the target included, and in the error state no plugin lying
on any dependency cycle is activated; `activate("P1")` with `P1` and `P2`
depending on each other raises the cycle error naming exactly both, with the
state unchanged. -/
theorem c2_cycle_detection :
    (∀ (env : Env) (fuel : Nat) (st : Manager) (name : String),
      WFM st →
      (∀ e ∈ st.plugins, e.2.activateRaises = false ∧ e.2.routeRaises = false ∧
        e.2.connectRaises = false) →
      (∀ e ∈ st.plugins, e.2.is_activated = false) →
      name ∈ pluginKeys st →
      (pluginKeys st).length < fuel →
      gatesPassB env st name = true →
      ¬ CycleFree st.plugin_infos name →
      ∃ ch st', activate_plugin env fuel st name =
          .error (.circularDependency ch, st') ∧
        name ∈ ch ∧
        (∀ m, OnCycle st.plugin_infos m → isActive st' m = false)) ∧
    activate_plugin stdEnv 3 cycleSt "P1" =
      .error (.circularDependency ["P1", "P2"], cycleSt) := by
  constructor
  · intro env fuel st name hwf hnrB hinactB hmem hfuel hgates hcyc
    have hnr : NoHookRaises st := NoHookRaises_of_forall hnrB
    have hinact : ∀ k, isActive st k = false := allInactive_isActive hinactB
    obtain ⟨p, hp⟩ : ∃ p, lookupPlugin st name = some p :=
      Option.isSome_iff_exists.mp (lookupPlugin_isSome_iff.mpr hmem)
    have hpact : p.is_activated = false := by
      have := hinact name
      simp only [isActive, hp] at this
      exact this
    obtain ⟨pi, hpi⟩ : ∃ pi, lookupInfo st name = some pi :=
      Option.isSome_iff_exists.mp (hwf.1 name hmem)
    obtain ⟨hpy, hev⟩ := gatesPassB_spec hgates hpi
    have hfm : fuelMeasure st [] < fuel :=
      lt_of_le_of_lt (fuelMeasure_nil_le st) hfuel
    have hsafe : ∀ k, isActive st k = true → CycleFree st.plugin_infos k := by
      intro k hk
      rw [hinact k] at hk
      cases hk
    rcases deps_cycle st.plugin_infos fuel st [] name rfl hwf hnr hsafe hmem
        (by simp) hfm with
      ⟨ch, st', herr, hch, hfr, hpres, hsafe'⟩ |
      ⟨st', track', hok, hcf, hfr, hpres, hsafe', htr1, htr2⟩
    · refine ⟨ch, st', ?_, hch name (mem_setAdd_self [] name), ?_⟩
      · rw [activate_plugin_deps_match hp hpact hpi hpy hev, herr]
        simp [wrapActivationError, isPAE]
      · intro m hm
        cases hcur : isActive st' m with
        | false => rfl
        | true =>
          rcases hsafe' m hcur with h | h
          · rw [hinact m] at h
            cases h
          · exact absurd hm (cycleFree_not_onCycle h)
    · exact absurd hcf hcyc
  · decide

/-- Witness for C2 at the concrete two-plugin cycle: the general statement
applied to `P1`/`P2`. -/
theorem c2_witness :
    ∃ ch st', activate_plugin stdEnv 3 cycleSt "P1" =
        .error (.circularDependency ch, st') ∧
      "P1" ∈ ch ∧
      (∀ m, OnCycle cycleSt.plugin_infos m → isActive st' m = false) :=
  c2_cycle_detection.1 stdEnv 3 cycleSt "P1" (by decide) (by decide) (by decide)
    (by decide) (by decide) (by decide)
    (fun hcf => cycleFree_not_onCycle hcf
      (onCycleTwo cycleSt.plugin_infos "P1" "P2" (by decide) (by decide)))

/-- Counterexample for C2 as stated: "for every plugin name from which a
dependency cycle is reachable, activate_plugin fails with a dependency-cycle
error".  (1) With cycle member `P2` already activated before the call,
`activate("P1")` succeeds, raising nothing, although the declared graph
`P1 → P2 → P1` is unchanged and cyclic; (2) with an unknown dependency
declared before the cycle, the call fails with the unknown-dependency error
instead; (3) with the target's interpreter gate failing, the call returns
the non-fatal skip; (4) with a raising hook on a dependency listed before
the cycle, the call fails with the wrapped hook error instead. -/
theorem c2_counterexample :
    (OnCycle cycleActiveSt.plugin_infos "P1" ∧
      runError (activate_plugin stdEnv 3 cycleActiveSt "P1") = none) ∧
    runError (activate_plugin stdEnv 4 cycleUnknownSt "Q") =
      some (.unknownDependency "U") ∧
    runError (activate_plugin stdEnv 3 cycleGateSt "P1") = none ∧
    runError (activate_plugin stdEnv 5 cycleHookSt "Q") =
      some (.failedToStart "Q" (render (.hookError "X" "activate"))) := by
  exact ⟨⟨onCycleTwo cycleActiveSt.plugin_infos "P1" "P2" (by decide) (by decide),
    by decide⟩, by decide, by decide, by decide⟩

/-! Dependency paths: inversion, append, and the consequences of path
uniqueness used by the tree-activation theorem. -/

theorem depPath_nil_inv {G : List (String × PluginInfo)} {a c : String}
    (h : DepPath G a c []) : a = c := by
  cases h
  rfl

theorem depPath_cons_inv {G : List (String × PluginInfo)} {a c x : String}
    {t : List String} (h : DepPath G a c (x :: t)) :
    x = a ∧ ∃ b, DepEdge G a b ∧ DepPath G b c t := by
  cases h with
  | step hb hp => exact ⟨rfl, _, hb, hp⟩

theorem depPath_append {G : List (String × PluginInfo)} {a b c : String}
    {l1 l2 : List String} (h1 : DepPath G a b l1) (h2 : DepPath G b c l2) :
    DepPath G a c (l1 ++ l2) := by
  induction h1 with
  | refl => exact h2
  | step hb hp ih => exact DepPath.step hb (ih h2)

theorem reaches_of_path {G : List (String × PluginInfo)} {a b : String}
    {l : List String} (h : DepPath G a b l) : Reaches G a b := by
  induction h with
  | refl => exact Relation.ReflTransGen.refl
  | step hb hp ih => exact Relation.ReflTransGen.head hb ih

theorem path_of_reaches {G : List (String × PluginInfo)} {a b : String}
    (h : Reaches G a b) : ∃ l, DepPath G a b l := by
  induction h using Relation.ReflTransGen.head_induction_on with
  | refl => exact ⟨[], DepPath.refl b⟩
  | head hab hr ih =>
    obtain ⟨l, hl⟩ := ih
    exact ⟨_ :: l, DepPath.step hab hl⟩

theorem unique_no_return {G : List (String × PluginInfo)} {r u d : String}
    {P : List String} (HU : UniquePathsFrom G r) (HP : DepPath G r u P)
    (hd : DepEdge G u d) : ¬ Reaches G d u := by
  intro hr
  obtain ⟨Q, hQ⟩ := path_of_reaches hr
  have hlong : DepPath G r u (P ++ (u :: Q)) :=
    depPath_append HP (DepPath.step hd hQ)
  have heq := HU u P (P ++ (u :: Q)) HP hlong
  have := congrArg List.length heq
  simp at this

theorem unique_sibling_disjoint {G : List (String × PluginInfo)} {r u d d' : String}
    {P : List String} (HU : UniquePathsFrom G r) (HP : DepPath G r u P)
    (hd : DepEdge G u d) (hd' : DepEdge G u d') (hne : d ≠ d') :
    ∀ w, Reaches G d w → Reaches G d' w → False := by
  intro w hw hw'
  obtain ⟨Q, hQ⟩ := path_of_reaches hw
  obtain ⟨Q', hQ'⟩ := path_of_reaches hw'
  have h1 : DepPath G r w (P ++ (u :: Q)) := depPath_append HP (DepPath.step hd hQ)
  have h2 : DepPath G r w (P ++ (u :: Q')) := depPath_append HP (DepPath.step hd' hQ')
  have heq := HU w _ _ h1 h2
  have hQQ : Q = Q' := by
    have := List.append_cancel_left heq
    simpa using this
  subst hQQ
  cases Q with
  | nil =>
    have e1 := depPath_nil_inv hQ
    have e2 := depPath_nil_inv hQ'
    exact hne (e1.trans e2.symm)
  | cons x t =>
    have e1 := (depPath_cons_inv hQ).1
    have e2 := (depPath_cons_inv hQ').1
    exact hne (e1.symm.trans e2)

/-! Activation over a tree-shaped dependency closure: the recursion succeeds
and activates exactly the reachable plugins (minus the target, which the
caller activates). -/

theorem infoDeps_lookup {G : List (String × PluginInfo)} {u d : String}
    (hd : d ∈ infoDeps G u) : ∃ piu, List.lookup u G = some piu ∧
      piu.dependencies = infoDeps G u := by
  unfold infoDeps at hd ⊢
  cases hlu : List.lookup u G with
  | none => rw [hlu] at hd; cases hd
  | some piu => exact ⟨piu, rfl, rfl⟩

theorem depLoop_tree
    (G : List (String × PluginInfo)) (r : String) (f : Nat)
    (ihf : ∀ st track name P, st.plugin_infos = G → WFM st → NoHookRaises st →
      UniquePathsFrom G r →
      (∀ v, Reaches G r v → (infoDeps G v).Nodup) →
      DepPath G r name P →
      name ∈ pluginKeys st → name ∉ track →
      (∀ v, Reaches G name v → v ∉ track) →
      (∀ v, Reaches G name v → isActive st v = false) →
      fuelMeasure st track < f →
      ∃ st' track', _activate_plugin_dependencies f st track name =
          .ok (infoDeps G name, st', track') ∧
        innerFrame st st' ∧
        (∀ x, x ∈ track' ↔ x ∈ track ∨ Reaches G name x) ∧
        (∀ v, isActive st' v = true ↔
          (isActive st v = true ∨ (Reaches G name v ∧ v ≠ name))))
    (HU : UniquePathsFrom G r)
    (ND : ∀ v, Reaches G r v → (infoDeps G v).Nodup)
    (stOrig : Manager) (track0 : List String) (u : String) (P : List String)
    (hwf0 : WFM stOrig) (hnr0 : NoHookRaises stOrig)
    (HPu : DepPath G r u P)
    (hdisj0 : ∀ v, Reaches G u v → v ∉ track0)
    (hact0 : ∀ v, Reaches G u v → isActive stOrig v = false)
    (hfm0 : fuelMeasure stOrig (setAdd track0 u) < f) :
    ∀ (rest done : List String) (stc : Manager) (trackc : List String),
      done ++ rest = infoDeps G u →
      stc.plugin_infos = G →
      innerFrame stOrig stc →
      (∀ x, x ∈ trackc ↔ x ∈ setAdd track0 u ∨ ∃ d ∈ done, Reaches G d x) →
      (∀ v, isActive stc v = true ↔
        (isActive stOrig v = true ∨ ∃ d ∈ done, Reaches G d v)) →
      ∃ st' track',
        depLoop (fun st tr d => _activate_plugin_dependencies f st tr d) rest stc trackc =
          .ok (st', track') ∧
        innerFrame stOrig st' ∧
        (∀ x, x ∈ track' ↔ x ∈ setAdd track0 u ∨ ∃ d ∈ infoDeps G u, Reaches G d x) ∧
        (∀ v, isActive st' v = true ↔
          (isActive stOrig v = true ∨ ∃ d ∈ infoDeps G u, Reaches G d v)) := by
  intro rest
  induction rest with
  | nil =>
    intro done stc trackc happ hinfc hfrc htrc hactc
    rw [List.append_nil] at happ
    subst happ
    exact ⟨stc, trackc, rfl, hfrc, htrc, hactc⟩
  | cons d rest ih =>
    intro done stc trackc happ hinfc hfrc htrc hactc
    have hwfc : WFM stc := WFM_transfer hfrc hwf0
    have hnrc : NoHookRaises stc := NoHookRaises_of_innerFrame hfrc hnr0
    have hkeysc : pluginKeys stc = pluginKeys stOrig := hfrc.2.2.2.2.2.2.1
    have hd_mem : d ∈ infoDeps G u := by
      rw [← happ]
      exact List.mem_append.mpr (Or.inr (List.mem_cons_self _ _))
    have hedge : DepEdge G u d := hd_mem
    have hreach_ud : Reaches G u d := Relation.ReflTransGen.single hedge
    have hnd : (infoDeps G u).Nodup := ND u (reaches_of_path HPu)
    have hnd' : (done ++ d :: rest).Nodup := by
      rw [happ]
      exact hnd
    have hd_not_done : d ∉ done := by
      intro hc
      exact (List.nodup_append.mp hnd').2.2 hc (List.mem_cons_self _ _)
    have hdone_sub : ∀ d' ∈ done, d' ∈ infoDeps G u := by
      intro d' hd'
      rw [← happ]
      exact List.mem_append.mpr (Or.inl hd')
    -- resolving one trackc membership into a contradiction with a fresh subtree
    have hfresh : ∀ v, Reaches G d v → v ∉ trackc := by
      intro v hv hin
      rcases (htrc v).mp hin with hsa | ⟨d', hd'done, hreach'⟩
      · rcases mem_setAdd.mp hsa with h0 | rfl
        · exact hdisj0 v (Relation.ReflTransGen.head hedge hv) h0
        · exact unique_no_return HU HPu hedge hv
      · have hne : d' ≠ d := fun h => hd_not_done (h ▸ hd'done)
        exact unique_sibling_disjoint HU HPu (hdone_sub d' hd'done) hedge hne v hreach' hv
    have hfreshact : ∀ v, Reaches G d v → isActive stc v = false := by
      intro v hv
      cases hcur : isActive stc v with
      | false => rfl
      | true =>
        exfalso
        rcases (hactc v).mp hcur with h0 | ⟨d', hd'done, hreach'⟩
        · rw [hact0 v (Relation.ReflTransGen.head hedge hv)] at h0
          cases h0
        · have hne : d' ≠ d := fun h => hd_not_done (h ▸ hd'done)
          exact unique_sibling_disjoint HU HPu (hdone_sub d' hd'done) hedge hne v hreach' hv
    have hd_not_trackc : d ∉ trackc := hfresh d Relation.ReflTransGen.refl
    have hd_keys : d ∈ pluginKeys stOrig := by
      obtain ⟨piu, hlu, hpd⟩ := infoDeps_lookup hd_mem
      have hmemu : (u, piu) ∈ stc.plugin_infos := by
        rw [hinfc]
        exact mem_of_lookup_eq_some hlu
      have := hwfc.2.1 (u, piu) hmemu d (by rw [hpd]; exact hd_mem)
      rw [hkeysc] at this
      exact this
    obtain ⟨dp, hdp⟩ : ∃ dp, lookupPlugin stc d = some dp :=
      Option.isSome_iff_exists.mp (lookupPlugin_isSome_iff.mpr (by rw [hkeysc]; exact hd_keys))
    obtain ⟨dpi, hdpi⟩ : ∃ dpi, lookupInfo stc d = some dpi :=
      Option.isSome_iff_exists.mp (hwfc.1 d (by rw [hkeysc]; exact hd_keys))
    have hdact : dp.is_activated = false := by
      have := hfreshact d Relation.ReflTransGen.refl
      simp only [isActive, hdp] at this
      exact this
    have hfmc : fuelMeasure stc trackc < f := by
      have hsub : ∀ x ∈ setAdd track0 u, x ∈ trackc :=
        fun x hx => (htrc x).mpr (Or.inl hx)
      have h1 : fuelMeasure stc trackc ≤ fuelMeasure stc (setAdd track0 u) :=
        fuelMeasure_mono stc hsub
      have h2 : fuelMeasure stc (setAdd track0 u) = fuelMeasure stOrig (setAdd track0 u) :=
        fuelMeasure_keys_eq hkeysc _
      omega
    have HPd : DepPath G r d (P ++ [u]) :=
      depPath_append HPu (DepPath.step hedge (DepPath.refl d))
    obtain ⟨st2, track2, hok2, hfr2, htr2, hact2⟩ :=
      ihf stc trackc d (P ++ [u]) hinfc hwfc hnrc HU ND HPd
        (by rw [hkeysc]; exact hd_keys) hd_not_trackc hfresh hfreshact hfmc
    obtain ⟨q, hq, hcore⟩ := hfr2.2.2.2.2.2.2.2 d dp hdp
    have hqact : q.is_activated = false := by
      have h2d : isActive st2 d = false := by
        cases hcur : isActive st2 d with
        | false => rfl
        | true =>
          exfalso
          rcases (hact2 d).mp hcur with h | ⟨-, hne⟩
          · rw [hfreshact d Relation.ReflTransGen.refl] at h
            cases h
          · exact hne rfl
      simp only [isActive, hq] at h2d
      exact h2d
    have hnr2 : NoHookRaises st2 :=
      NoHookRaises_of_innerFrame (innerFrame_trans hfrc hfr2) hnr0
    obtain ⟨hq1, hq2, hq3⟩ := hnr2 d q hq
    obtain ⟨st3, hrun3, hfr3, hact3⟩ := _activate_plugin_ok_spec dpi hq hqact hq1 hq2 hq3
    have hstep : depLoop (fun st tr d => _activate_plugin_dependencies f st tr d)
        (d :: rest) stc trackc =
        depLoop (fun st tr d => _activate_plugin_dependencies f st tr d) rest st3 track2 := by
      simp [depLoop, if_neg hd_not_trackc, hdp, hdpi, hdact, hok2, hrun3]
    have happ' : (done ++ [d]) ++ rest = infoDeps G u := by
      rw [List.append_assoc]
      exact happ
    have hinfc3 : st3.plugin_infos = G := by
      rw [hfr3.1, hfr2.1, hinfc]
    have hfrc3 : innerFrame stOrig st3 :=
      innerFrame_trans (innerFrame_trans hfrc hfr2) hfr3
    have htrc3 : ∀ x, x ∈ track2 ↔
        x ∈ setAdd track0 u ∨ ∃ d' ∈ done ++ [d], Reaches G d' x := by
      intro x
      rw [htr2 x, htrc x]
      constructor
      · rintro ((hsa | ⟨d', hd', hr⟩) | hr)
        · exact Or.inl hsa
        · exact Or.inr ⟨d', List.mem_append.mpr (Or.inl hd'), hr⟩
        · exact Or.inr ⟨d, List.mem_append.mpr (Or.inr (List.mem_singleton.mpr rfl)), hr⟩
      · rintro (hsa | ⟨d', hd', hr⟩)
        · exact Or.inl (Or.inl hsa)
        · rcases List.mem_append.mp hd' with h | h
          · exact Or.inl (Or.inr ⟨d', h, hr⟩)
          · rw [List.mem_singleton.mp h] at hr
            exact Or.inr hr
    have hactc3 : ∀ v, isActive st3 v = true ↔
        (isActive stOrig v = true ∨ ∃ d' ∈ done ++ [d], Reaches G d' v) := by
      intro v
      rw [hact3 v]
      by_cases hvd : v = d
      · subst hvd
        simp only [if_pos rfl]
        constructor
        · intro _
          exact Or.inr ⟨v, List.mem_append.mpr (Or.inr (List.mem_singleton.mpr rfl)),
            Relation.ReflTransGen.refl⟩
        · intro _
          rfl
      · rw [if_neg hvd, hact2 v, hactc v]
        constructor
        · rintro ((h0 | ⟨d', hd', hr⟩) | ⟨hr, -⟩)
          · exact Or.inl h0
          · exact Or.inr ⟨d', List.mem_append.mpr (Or.inl hd'), hr⟩
          · exact Or.inr ⟨d, List.mem_append.mpr (Or.inr (List.mem_singleton.mpr rfl)), hr⟩
        · rintro (h0 | ⟨d', hd', hr⟩)
          · exact Or.inl (Or.inl h0)
          · rcases List.mem_append.mp hd' with h | h
            · exact Or.inl (Or.inr ⟨d', h, hr⟩)
            · rw [List.mem_singleton.mp h] at hr
              exact Or.inr ⟨hr, hvd⟩
    obtain ⟨st', track', hok', hfr', htr', hact'⟩ :=
      ih (done ++ [d]) st3 track2 happ' hinfc3 hfrc3 htrc3 hactc3
    refine ⟨st', track', ?_, hfr', htr', hact'⟩
    rw [hstep, hok']

theorem deps_tree (G : List (String × PluginInfo)) (r : String) :
    ∀ (fuel : Nat) (st : Manager) (track : List String) (name : String)
      (P : List String),
      st.plugin_infos = G → WFM st → NoHookRaises st →
      UniquePathsFrom G r →
      (∀ v, Reaches G r v → (infoDeps G v).Nodup) →
      DepPath G r name P →
      name ∈ pluginKeys st → name ∉ track →
      (∀ v, Reaches G name v → v ∉ track) →
      (∀ v, Reaches G name v → isActive st v = false) →
      fuelMeasure st track < fuel →
      ∃ st' track', _activate_plugin_dependencies fuel st track name =
          .ok (infoDeps G name, st', track') ∧
        innerFrame st st' ∧
        (∀ x, x ∈ track' ↔ x ∈ track ∨ Reaches G name x) ∧
        (∀ v, isActive st' v = true ↔
          (isActive st v = true ∨ (Reaches G name v ∧ v ≠ name))) := by
  intro fuel
  induction fuel with
  | zero =>
    intro st track name P _ _ _ _ _ _ _ _ _ _ hfm
    omega
  | succ f ihf =>
    intro st track name P hinf hwf hnr HU ND HP hmem hnt hdisj hact hfm
    obtain ⟨pi, hpi⟩ : ∃ pi, lookupInfo st name = some pi :=
      Option.isSome_iff_exists.mp (hwf.1 name hmem)
    have hpiG : List.lookup name G = some pi := by
      rw [← hinf]
      exact hpi
    have hdeps_eq : infoDeps G name = pi.dependencies := by
      simp [infoDeps, hpiG]
    have hstep : _activate_plugin_dependencies (f + 1) st track name =
        match depLoop (fun st tr d => _activate_plugin_dependencies f st tr d)
            pi.dependencies st (setAdd track name) with
        | .error e => .error e
        | .ok (st2, track2) => .ok (pi.dependencies, st2, track2) := by
      rw [deps_succ, hpi]
    have hfm1 : fuelMeasure st (setAdd track name) < f := by
      have := fuelMeasure_setAdd_lt hmem hnt
      omega
    obtain ⟨st', track', hok, hfr, htr, hact'⟩ :=
      depLoop_tree G r f ihf HU ND st track name P hwf hnr HP hdisj hact hfm1
        pi.dependencies [] st (setAdd track name)
        (by rw [hdeps_eq]; exact (List.nil_append _))
        hinf (innerFrame_refl st)
        (by intro x; simp) (by intro v; simp)
    refine ⟨st', track', ?_, hfr, ?_, ?_⟩
    · rw [hstep, hok, hdeps_eq]
    · intro x
      rw [htr x]
      constructor
      · rintro (hsa | ⟨d, hd, hr⟩)
        · rcases mem_setAdd.mp hsa with h | rfl
          · exact Or.inl h
          · exact Or.inr Relation.ReflTransGen.refl
        · exact Or.inr (Relation.ReflTransGen.head hd hr)
      · rintro (h | hr)
        · exact Or.inl (mem_setAdd_of_mem name h)
        · rcases Relation.ReflTransGen.cases_head hr with heq | ⟨c, hc, hcr⟩
          · rw [← heq]
            exact Or.inl (mem_setAdd_self track name)
          · exact Or.inr ⟨c, hc, hcr⟩
    · intro v
      rw [hact' v]
      constructor
      · rintro (h | ⟨d, hd, hr⟩)
        · exact Or.inl h
        · refine Or.inr ⟨Relation.ReflTransGen.head hd hr, ?_⟩
          intro hvn
          rw [hvn] at hr
          exact unique_no_return HU HP hd hr
      · rintro (h | ⟨hr, hvn⟩)
        · exact Or.inl h
        · rcases Relation.ReflTransGen.cases_head hr with heq | ⟨c, hc, hcr⟩
          · exact absurd heq.symm hvn
          · exact Or.inr ⟨c, hc, hcr⟩

theorem uniquePaths_of_no_deps {G : List (String × PluginInfo)} {r : String}
    (h : infoDeps G r = []) : UniquePathsFrom G r := by
  intro v l1 l2 h1 h2
  cases h1 with
  | refl =>
    cases h2 with
    | refl => rfl
    | step he _ =>
      unfold DepEdge at he
      rw [h] at he
      cases he
  | step he _ =>
    unfold DepEdge at he
    rw [h] at he
    cases he

theorem reaches_no_deps {G : List (String × PluginInfo)} {r : String}
    (h : infoDeps G r = []) {v : String} (hv : Reaches G r v) : v = r := by
  rcases Relation.ReflTransGen.cases_head hv with heq | ⟨c, hc, -⟩
  · exact heq.symm
  · unfold DepEdge at hc
    rw [h] at hc
    cases hc

theorem activate_plugin_tree_ok (env : Env) (fuel : Nat) (st : Manager) (name : String)
    (hwf : WFM st)
    (hnrB : ∀ e ∈ st.plugins, e.2.activateRaises = false ∧ e.2.routeRaises = false ∧
      e.2.connectRaises = false)
    (hmem : name ∈ pluginKeys st)
    (hfuel : (pluginKeys st).length < fuel)
    (hgates : gatesPassB env st name = true)
    (HU : UniquePathsFrom st.plugin_infos name)
    (ND : ∀ v, Reaches st.plugin_infos name v → (infoDeps st.plugin_infos v).Nodup)
    (hact : ∀ v, Reaches st.plugin_infos name v → isActive st v = false) :
    ∃ st', activate_plugin env fuel st name = .ok st' ∧
      (∀ v, isActive st' v = true ↔
        (isActive st v = true ∨ Reaches st.plugin_infos name v)) ∧
      (∃ q, lookupPlugin st' name = some q ∧
        q.dependencies = some (infoDeps st.plugin_infos name)) ∧
      (∀ k p', k ≠ name → lookupPlugin st k = some p' →
        ∃ q, lookupPlugin st' k = some q ∧ q.dependencies = p'.dependencies) := by
  have hnr : NoHookRaises st := NoHookRaises_of_forall hnrB
  obtain ⟨p, hp⟩ : ∃ p, lookupPlugin st name = some p :=
    Option.isSome_iff_exists.mp (lookupPlugin_isSome_iff.mpr hmem)
  have hpact : p.is_activated = false := by
    have := hact name Relation.ReflTransGen.refl
    simp only [isActive, hp] at this
    exact this
  obtain ⟨pi, hpi⟩ : ∃ pi, lookupInfo st name = some pi :=
    Option.isSome_iff_exists.mp (hwf.1 name hmem)
  obtain ⟨hpy, hev⟩ := gatesPassB_spec hgates hpi
  have hfm : fuelMeasure st [] < fuel :=
    lt_of_le_of_lt (fuelMeasure_nil_le st) hfuel
  obtain ⟨st2, track2, hok, hfr2, htr2, hact2⟩ :=
    deps_tree st.plugin_infos name fuel st [] name [] rfl hwf hnr HU ND
      (DepPath.refl name) hmem (by simp) (fun v _ => by simp) hact hfm
  obtain ⟨q2, hq2, hcore2⟩ := hfr2.2.2.2.2.2.2.2 name p hp
  have hq2act : q2.is_activated = false := by
    have h2 : isActive st2 name = false := by
      cases hcur : isActive st2 name with
      | false => rfl
      | true =>
        exfalso
        rcases (hact2 name).mp hcur with h | ⟨-, hne⟩
        · rw [hact name Relation.ReflTransGen.refl] at h
          cases h
        · exact hne rfl
    simp only [isActive, hq2] at h2
    exact h2
  have hq3 : lookupPlugin
      (updPlugin st2 name
        (fun q => { q with dependencies := some (infoDeps st.plugin_infos name) })) name =
      some { q2 with dependencies := some (infoDeps st.plugin_infos name) } := by
    rw [lookupPlugin_updPlugin]
    simp [hq2]
  have hnr2 : NoHookRaises st2 := NoHookRaises_of_innerFrame hfr2 hnr
  obtain ⟨hf1, hf2, hf3⟩ := hnr2 name q2 hq2
  obtain ⟨st4, hrun4, hfr4, hact4⟩ :=
    _activate_plugin_ok_spec pi hq3 (by simpa using hq2act) (by simpa using hf1)
      (by simpa using hf2) (by simpa using hf3)
  refine ⟨st4, ?_, ?_, ?_, ?_⟩
  · rw [activate_plugin_deps_match hp hpact hpi hpy hev, hok]
    show (match _activate_plugin
        (updPlugin st2 name
          (fun q => { q with dependencies := some (infoDeps st.plugin_infos name) }))
        name pi with
      | .error e => Except.error (wrapActivationError name e)
      | .ok st3 => Except.ok st3) = Except.ok st4
    rw [hrun4]
  · intro v
    rw [hact4 v]
    by_cases hvn : v = name
    · subst hvn
      simp only [if_pos rfl]
      constructor
      · intro _
        exact Or.inr Relation.ReflTransGen.refl
      · intro _
        rfl
    · rw [if_neg hvn, isActive_upd_deps, hact2 v]
      constructor
      · rintro (h | ⟨hr, -⟩)
        · exact Or.inl h
        · exact Or.inr hr
      · rintro (h | hr)
        · exact Or.inl h
        · exact Or.inr ⟨hr, hvn⟩
  · obtain ⟨q4, hq4, hcore4⟩ := hfr4.2.2.2.2.2.2.2 name _ hq3
    exact ⟨q4, hq4, hcore4.2.2.2.1⟩
  · intro k p' hk hp'
    obtain ⟨qk, hqk, hcorek⟩ := hfr2.2.2.2.2.2.2.2 k p' hp'
    have hq3k : lookupPlugin
        (updPlugin st2 name
          (fun q => { q with dependencies := some (infoDeps st.plugin_infos name) })) k =
        some qk := by
      rw [lookupPlugin_updPlugin, if_neg hk]
      exact hqk
    obtain ⟨qk4, hqk4, hcorek4⟩ := hfr4.2.2.2.2.2.2.2 k qk hq3k
    exact ⟨qk4, hqk4, hcorek4.2.2.2.1.trans hcorek.2.2.2.1⟩

/-- C1 (amended claim): when the target's dependency closure is a tree —
every reachable plugin is reached along exactly one declared path and no
declared dependency list repeats an entry — with the registry well formed,
hooks non-raising, the target's gates passing and the whole closure
initially inactive, `activate_plugin(name)` succeeds, the plugins activated
afterwards are exactly those activated before plus the target's reachable
closure, the *target's* recorded `dependencies` attribute equals its
descriptor's declared list in declaration order, and the recorded
`dependencies` attribute of every other plugin is unchanged. -/
theorem c1_tree_activation (env : Env) (fuel : Nat) (st : Manager) (name : String)
    (hwf : WFM st)
    (hnrB : ∀ e ∈ st.plugins, e.2.activateRaises = false ∧ e.2.routeRaises = false ∧
      e.2.connectRaises = false)
    (hmem : name ∈ pluginKeys st)
    (hfuel : (pluginKeys st).length < fuel)
    (hgates : gatesPassB env st name = true)
    (HU : UniquePathsFrom st.plugin_infos name)
    (ND : ∀ v, Reaches st.plugin_infos name v → (infoDeps st.plugin_infos v).Nodup)
    (hact : ∀ v, Reaches st.plugin_infos name v → isActive st v = false) :
    ∃ st', activate_plugin env fuel st name = .ok st' ∧
      (∀ v, isActive st' v = true ↔
        (isActive st v = true ∨ Reaches st.plugin_infos name v)) ∧
      (∃ q, lookupPlugin st' name = some q ∧
        q.dependencies = some (infoDeps st.plugin_infos name)) ∧
      (∀ k p', k ≠ name → lookupPlugin st k = some p' →
        ∃ q, lookupPlugin st' k = some q ∧ q.dependencies = p'.dependencies) :=
  activate_plugin_tree_ok env fuel st name hwf hnrB hmem hfuel hgates HU ND hact

/-- Witness for C1: a single dependency-free plugin activates, ends active,
and records its empty declared dependency list. -/
theorem c1_witness :
    ∃ st', activate_plugin stdEnv 2 singleSt "P" = .ok st' ∧
      (∀ v, isActive st' v = true ↔
        (isActive singleSt v = true ∨ Reaches singleSt.plugin_infos "P" v)) ∧
      (∃ q, lookupPlugin st' "P" = some q ∧
        q.dependencies = some (infoDeps singleSt.plugin_infos "P")) ∧
      (∀ k p', k ≠ "P" → lookupPlugin singleSt k = some p' →
        ∃ q, lookupPlugin st' k = some q ∧ q.dependencies = p'.dependencies) :=
  c1_tree_activation stdEnv 2 singleSt "P" (by decide) (by decide) (by decide)
    (by decide) (by decide)
    (uniquePaths_of_no_deps (by decide))
    (fun v hv => by rw [reaches_no_deps (by decide) hv]; decide)
    (fun v _ => allInactive_isActive (by decide) v)

/-- Counterexample for C1 as stated, in two parts.  (1) The dependency graph
`T → A, T → B, A → B` is acyclic (with every dependency known, the target
inactive, gates satisfied and no hook raising), yet `activate_plugin("T")`
does not leave the target activated: the shared visited set of
`_activate_plugin_dependencies` makes the second edge to `B` look like a
cycle, so the call raises a circular-dependency error and `T` stays
inactive (while the already-visited `A` and `B` remain activated).  (2) On
the acyclic chain `T → A → B` activation does succeed, but the recorded
`dependencies` attribute of the transitive dependency `A` is not its
descriptor's declared list `["B"]` — it is never written at all; only the
target's attribute is recorded. -/
theorem c1_counterexample :
    (runError (activate_plugin stdEnv 4 diamondSt "T") =
        some (.circularDependency ["T", "A", "B"]) ∧
      isActive (runErrorState (activate_plugin stdEnv 4 diamondSt "T") diamondSt) "T"
        = false) ∧
    ((activate_plugin stdEnv 4 chainSt "T").isOk = true ∧
      (lookupPlugin (runOkState (activate_plugin stdEnv 4 chainSt "T") chainSt) "A").map
        BotPlugin.dependencies = some none ∧
      (lookupInfo chainSt "A").map PluginInfo.dependencies = some ["B"]) := by
  exact ⟨⟨by decide, by decide⟩, by decide, by decide, by decide⟩

/-! Blacklisted plugins: what the bulk pass and the activation engine leave
untouched.  All lemmas track a distinguished plugin `X` that is never the
direct target of the operation and is not declared as a dependency by any
registered descriptor. -/

theorem preservesK_refl (X : String) (st : Manager) : preservesK X st st :=
  ⟨rfl, rfl, rfl, rfl, rfl⟩

theorem preservesK_trans {X : String} {st1 st2 st3 : Manager}
    (h1 : preservesK X st1 st2) (h2 : preservesK X st2 st3) : preservesK X st1 st3 :=
  ⟨h2.1.trans h1.1, h2.2.1.trans h1.2.1, h2.2.2.1.trans h1.2.2.1,
    h2.2.2.2.1.trans h1.2.2.2.1, h2.2.2.2.2.trans h1.2.2.2.2⟩

theorem preservesK_updPlugin (X : String) (st : Manager) {n : String}
    (f : BotPlugin → BotPlugin) (hnX : n ≠ X) : preservesK X st (updPlugin st n f) := by
  refine ⟨rfl, rfl, rfl, pluginKeys_updPlugin st n f, ?_⟩
  rw [lookupPlugin_updPlugin, if_neg (fun h => hnX h.symm)]

theorem preservesK_addTemplates (X : String) (st : Manager) (pi : PluginInfo) :
    preservesK X st (addTemplatesPath st pi) := ⟨rfl, rfl, rfl, rfl, rfl⟩

theorem preservesK_removeTemplates (X : String) (st : Manager) (pi : PluginInfo) :
    preservesK X st (removeTemplatesPath st pi) := ⟨rfl, rfl, rfl, rfl, rfl⟩

theorem deactivate_presK (X : String) (st : Manager) {n : String} (hnX : n ≠ X) :
    ExceptStateP (preservesK X st) (deactivate_plugin st n) := by
  unfold deactivate_plugin
  split
  · exact preservesK_refl X st
  · split
    · exact preservesK_refl X st
    · split
      · exact preservesK_refl X st
      · exact preservesK_trans (preservesK_updPlugin X st _ hnX)
          (preservesK_removeTemplates X _ _)

theorem exceptStateP_of_eq {P : Manager → Prop}
    {r : Except (PluginError × Manager) Manager}
    (h : ExceptStateP P r) :
    (∀ st', r = .ok st' → P st') ∧ (∀ e st', r = .error (e, st') → P st') := by
  constructor
  · intro st' hr
    rw [hr] at h
    exact h
  · intro e st' hr
    rw [hr] at h
    exact h

theorem _activate_plugin_eq (st : Manager) (name : String) (pi : PluginInfo) :
    _activate_plugin st name pi =
      match lookupPlugin st name with
      | none => .error (.keyError name, st)
      | some plugin =>
        if plugin.is_activated then .error (.internalActivated, st)
        else
          if plugin.activateRaises then
            match deactivate_plugin
                (addTemplatesPath
                  (updPlugin st name
                    (fun p => { p with config := get_plugin_configuration st name })) pi)
                name with
            | .ok st => .error (.hookError name "activate", st)
            | .error e => .error e
          else
            if plugin.routeRaises then
              match deactivate_plugin
                  (updPlugin
                    (addTemplatesPath
                      (updPlugin st name
                        (fun p => { p with config := get_plugin_configuration st name })) pi)
                    name (fun p => { p with is_activated := true })) name with
              | .ok st => .error (.hookError name "route", st)
              | .error e => .error e
            else if plugin.connectRaises then
              match deactivate_plugin
                  (updPlugin
                    (addTemplatesPath
                      (updPlugin st name
                        (fun p => { p with config := get_plugin_configuration st name })) pi)
                    name (fun p => { p with is_activated := true })) name with
              | .ok st => .error (.hookError name "callback_connect", st)
              | .error e => .error e
            else .ok (updPlugin
                    (addTemplatesPath
                      (updPlugin st name
                        (fun p => { p with config := get_plugin_configuration st name })) pi)
                    name (fun p => { p with is_activated := true })) := rfl

theorem _activate_plugin_presK (X : String) (st : Manager) {n : String}
    (pi : PluginInfo) (hnX : n ≠ X) :
    ExceptStateP (preservesK X st) (_activate_plugin st n pi) := by
  rw [_activate_plugin_eq]
  have hpres1 : preservesK X st
      (addTemplatesPath
        (updPlugin st n
          (fun q => { q with config := get_plugin_configuration st n })) pi) :=
    preservesK_trans (preservesK_updPlugin X st _ hnX) (preservesK_addTemplates X _ pi)
  have hpres2 : preservesK X st
      (updPlugin
        (addTemplatesPath
          (updPlugin st n
            (fun q => { q with config := get_plugin_configuration st n })) pi) n
        (fun q => { q with is_activated := true })) :=
    preservesK_trans hpres1 (preservesK_updPlugin X _ _ hnX)
  split
  · exact preservesK_refl X st
  · split
    · exact preservesK_refl X st
    · split
      · split
        · rename_i s heq
          exact preservesK_trans hpres1
            ((exceptStateP_of_eq (deactivate_presK X _ hnX)).1 s heq)
        · rename_i e heq
          obtain ⟨e1, st1⟩ := e
          exact preservesK_trans hpres1
            ((exceptStateP_of_eq (deactivate_presK X _ hnX)).2 e1 st1 heq)
      · split
        · split
          · rename_i s heq
            exact preservesK_trans hpres2
              ((exceptStateP_of_eq (deactivate_presK X _ hnX)).1 s heq)
          · rename_i e heq
            obtain ⟨e1, st1⟩ := e
            exact preservesK_trans hpres2
              ((exceptStateP_of_eq (deactivate_presK X _ hnX)).2 e1 st1 heq)
        · split
          · split
            · rename_i s heq
              exact preservesK_trans hpres2
                ((exceptStateP_of_eq (deactivate_presK X _ hnX)).1 s heq)
            · rename_i e heq
              obtain ⟨e1, st1⟩ := e
              exact preservesK_trans hpres2
                ((exceptStateP_of_eq (deactivate_presK X _ hnX)).2 e1 st1 heq)
          · exact hpres2

theorem depsStateP_of_eq {P : Manager → Prop} {r : DepsResult} (h : DepsStateP P r) :
    (∀ a st' tr, r = .ok (a, st', tr) → P st') ∧
    (∀ e st', r = .error (e, st') → P st') := by
  constructor
  · intro a st' tr hr
    rw [hr] at h
    exact h
  · intro e st' hr
    rw [hr] at h
    exact h

theorem depLoop_presK (X : String) (f : Nat)
    (ihf : ∀ st track name, (∀ e ∈ st.plugin_infos, X ∉ e.2.dependencies) →
      DepsStateP (preservesK X st) (_activate_plugin_dependencies f st track name)) :
    ∀ (ds : List String) (st : Manager) (track : List String),
      (∀ e ∈ st.plugin_infos, X ∉ e.2.dependencies) →
      (∀ d ∈ ds, d ≠ X) →
      LoopStateP (preservesK X st)
        (depLoop (fun st tr d => _activate_plugin_dependencies f st tr d) ds st track) := by
  intro ds
  induction ds with
  | nil =>
    intro st track _ _
    exact preservesK_refl X st
  | cons d rest ih =>
    intro st track hnd hds
    have hdX : d ≠ X := hds d (List.mem_cons_self _ _)
    have hrest : ∀ d' ∈ rest, d' ≠ X := fun d' hd' => hds d' (List.mem_cons_of_mem _ hd')
    show LoopStateP (preservesK X st)
      (if d ∈ track then .error (.circularDependency track, st)
      else
        match lookupPlugin st d with
        | none => .error (.unknownDependency d, st)
        | some dep_plugin =>
          match lookupInfo st d with
          | none => .error (.keyError d, st)
          | some dep_pi =>
            if dep_plugin.is_activated then
              depLoop (fun st tr d => _activate_plugin_dependencies f st tr d) rest st track
            else
              match _activate_plugin_dependencies f st track d with
              | .error e => .error e
              | .ok (_, st2, track2) =>
                match _activate_plugin st2 d dep_pi with
                | .error e => .error e
                | .ok st3 =>
                  depLoop (fun st tr d => _activate_plugin_dependencies f st tr d) rest st3 track2)
    split
    · exact preservesK_refl X st
    · split
      · exact preservesK_refl X st
      · split
        · exact preservesK_refl X st
        · rename_i dep_plugin hdp dep_pi hdpi
          split
          · exact ih st track hnd hrest
          · split
            · rename_i e heq
              obtain ⟨e1, st1⟩ := e
              exact (depsStateP_of_eq (ihf st track d hnd)).2 e1 st1 heq
            · rename_i a st2 track2 heq
              have hpres2 : preservesK X st st2 :=
                (depsStateP_of_eq (ihf st track d hnd)).1 a st2 track2 heq
              split
              · rename_i e heq2
                obtain ⟨e1, st1⟩ := e
                exact preservesK_trans hpres2
                  ((exceptStateP_of_eq (_activate_plugin_presK X st2 dep_pi hdX)).2 e1 st1 heq2)
              · rename_i st3 heq2
                have hpres3 : preservesK X st st3 :=
                  preservesK_trans hpres2
                    ((exceptStateP_of_eq (_activate_plugin_presK X st2 dep_pi hdX)).1 st3 heq2)
                have hnd3 : ∀ e ∈ st3.plugin_infos, X ∉ e.2.dependencies := by
                  rw [hpres3.1]
                  exact hnd
                have := ih st3 track2 hnd3 hrest
                cases hres : depLoop (fun st tr d => _activate_plugin_dependencies f st tr d)
                    rest st3 track2 with
                | ok r =>
                  obtain ⟨st4, tr4⟩ := r
                  rw [hres] at this
                  show preservesK X st st4
                  exact preservesK_trans hpres3 this
                | error e =>
                  obtain ⟨e1, st4⟩ := e
                  rw [hres] at this
                  show preservesK X st st4
                  exact preservesK_trans hpres3 this

theorem deps_presK (X : String) :
    ∀ (f : Nat) (st : Manager) (track : List String) (name : String),
      (∀ e ∈ st.plugin_infos, X ∉ e.2.dependencies) →
      DepsStateP (preservesK X st) (_activate_plugin_dependencies f st track name) := by
  intro f
  induction f with
  | zero =>
    intro st track name _
    exact preservesK_refl X st
  | succ f ihf =>
    intro st track name hnd
    rw [deps_succ]
    split
    · exact preservesK_refl X st
    · rename_i pi hpi
      have hds : ∀ d ∈ pi.dependencies, d ≠ X := by
        intro d hd hdx
        exact hnd (name, pi) (mem_of_lookup_eq_some hpi) (hdx ▸ hd)
      have hloop := depLoop_presK X f ihf pi.dependencies st (setAdd track name) hnd hds
      cases hres : depLoop (fun st tr d => _activate_plugin_dependencies f st tr d)
          pi.dependencies st (setAdd track name) with
      | ok r =>
        obtain ⟨st2, tr2⟩ := r
        rw [hres] at hloop
        exact hloop
      | error e =>
        obtain ⟨e1, st2⟩ := e
        rw [hres] at hloop
        exact hloop

theorem wrap_state (name : String) (e : PluginError × Manager) :
    (wrapActivationError name e).2 = e.2 := by
  unfold wrapActivationError
  split <;> rfl

theorem activate_plugin_eq (env : Env) (fuel : Nat) (st : Manager) (name : String) :
    activate_plugin env fuel st name =
      match (match lookupPlugin st name with
        | none => .error (.notFound name, st)
        | some plugin =>
          if plugin.is_activated then .error (.alreadyActive name, st)
          else
            match lookupInfo st name with
            | none => .error (.keyError name, st)
            | some pi =>
              if !check_python_plug_section env.sys_version pi then .ok st
              else
                match check_errbot_version env pi with
                | some e => .error (e, st)
                | none =>
                  match _activate_plugin_dependencies fuel st [] name with
                  | .error e => .error e
                  | .ok (depends_on, st, _) =>
                    _activate_plugin
                      (updPlugin st name (fun p => { p with dependencies := some depends_on }))
                      name pi :
        Except (PluginError × Manager) Manager) with
      | .ok st => .ok st
      | .error e => .error (wrapActivationError name e) := rfl

theorem activate_plugin_presK (X : String) (env : Env) (fuel : Nat) (st : Manager)
    {n : String} (hnX : n ≠ X)
    (hnd : ∀ e ∈ st.plugin_infos, X ∉ e.2.dependencies) :
    ExceptStateP (preservesK X st) (activate_plugin env fuel st n) := by
  rw [activate_plugin_eq]
  have hbody : ExceptStateP (preservesK X st)
      (match lookupPlugin st n with
        | none => .error (.notFound n, st)
        | some plugin =>
          if plugin.is_activated then .error (.alreadyActive n, st)
          else
            match lookupInfo st n with
            | none => .error (.keyError n, st)
            | some pi =>
              if !check_python_plug_section env.sys_version pi then .ok st
              else
                match check_errbot_version env pi with
                | some e => .error (e, st)
                | none =>
                  match _activate_plugin_dependencies fuel st [] n with
                  | .error e => .error e
                  | .ok (depends_on, st, _) =>
                    _activate_plugin
                      (updPlugin st n (fun p => { p with dependencies := some depends_on }))
                      n pi :
        Except (PluginError × Manager) Manager) := by
    split
    · exact preservesK_refl X st
    · split
      · exact preservesK_refl X st
      · split
        · exact preservesK_refl X st
        · rename_i pi hpi
          split
          · exact preservesK_refl X st
          · split
            · exact preservesK_refl X st
            · split
              · rename_i e heq
                obtain ⟨e1, st1⟩ := e
                exact (depsStateP_of_eq (deps_presK X fuel st [] n hnd)).2 e1 st1 heq
              · rename_i depends_on st2 tr2 heq
                have hpres2 : preservesK X st st2 :=
                  (depsStateP_of_eq (deps_presK X fuel st [] n hnd)).1 depends_on st2 tr2 heq
                have hpres3 : preservesK X st
                    (updPlugin st2 n (fun p => { p with dependencies := some depends_on })) :=
                  preservesK_trans hpres2 (preservesK_updPlugin X st2 _ hnX)
                have hrun := _activate_plugin_presK X
                  (updPlugin st2 n (fun p => { p with dependencies := some depends_on }))
                  pi hnX
                cases hres : _activate_plugin
                    (updPlugin st2 n (fun p => { p with dependencies := some depends_on }))
                    n pi with
                | ok st4 =>
                  rw [hres] at hrun
                  show preservesK X st st4
                  exact preservesK_trans hpres3 hrun
                | error e =>
                  obtain ⟨e1, st4⟩ := e
                  rw [hres] at hrun
                  show preservesK X st st4
                  exact preservesK_trans hpres3 hrun
  cases hb : (match lookupPlugin st n with
      | none => .error (.notFound n, st)
      | some plugin =>
        if plugin.is_activated then .error (.alreadyActive n, st)
        else
          match lookupInfo st n with
          | none => .error (.keyError n, st)
          | some pi =>
            if !check_python_plug_section env.sys_version pi then .ok st
            else
              match check_errbot_version env pi with
              | some e => .error (e, st)
              | none =>
                match _activate_plugin_dependencies fuel st [] n with
                | .error e => .error e
                | .ok (depends_on, st, _) =>
                  _activate_plugin
                    (updPlugin st n (fun p => { p with dependencies := some depends_on }))
                    n pi :
      Except (PluginError × Manager) Manager) with
  | ok st4 =>
    rw [hb] at hbody
    exact hbody
  | error e =>
    rw [hb] at hbody
    obtain ⟨e1, st4⟩ := e
    show preservesK X st (wrapActivationError n (e1, st4)).2
    rw [wrap_state]
    exact hbody

theorem bulkStep_eq (env : Env) (fuel : Nat) (errors : String) (stc : Manager)
    (n : String) :
    bulkStep env fuel (errors, stc) n = (match lookupPlugin stc n with
    | none => (errors, stc)
    | some plugin =>
      if is_plugin_blacklisted stc n then
        (errors ++ blacklistNotice plugin.name stc.botPfx n, stc)
      else if !plugin.is_activated then
        match activate_plugin env fuel stc n with
        | .ok st2 => (errors, st2)
        | .error (e, st2) => (errors ++ activationErrorLine n (render e), st2)
      else (errors, stc)) := rfl

theorem bulkStep_presK (X : String) (env : Env) (fuel : Nat) {st0 : Manager}
    (stc : Manager) (errors : String) (n : String)
    (hnX : n ≠ X) (hpres : preservesK X st0 stc)
    (hnd : ∀ e ∈ st0.plugin_infos, X ∉ e.2.dependencies) :
    ∃ s, (bulkStep env fuel (errors, stc) n).1 = errors ++ s ∧
      preservesK X st0 (bulkStep env fuel (errors, stc) n).2 := by
  have hndc : ∀ e ∈ stc.plugin_infos, X ∉ e.2.dependencies := by
    rw [hpres.1]
    exact hnd
  rw [bulkStep_eq]
  split
  · exact ⟨"", by simp, hpres⟩
  · rename_i plugin hlp
    split
    · exact ⟨blacklistNotice plugin.name stc.botPfx n, rfl, hpres⟩
    · split
      · have hrun := activate_plugin_presK X env fuel stc hnX hndc
        split
        · rename_i st2 heq
          rw [heq] at hrun
          exact ⟨"", by simp, preservesK_trans hpres hrun⟩
        · rename_i e st2 heq
          rw [heq] at hrun
          exact ⟨activationErrorLine n (render e), rfl, preservesK_trans hpres hrun⟩
      · exact ⟨"", by simp, hpres⟩

theorem bulkFold_presK (X : String) (env : Env) (fuel : Nat) {st0 : Manager}
    (hnd : ∀ e ∈ st0.plugin_infos, X ∉ e.2.dependencies) :
    ∀ (L : List String) (errors : String) (stc : Manager),
      (∀ n ∈ L, n ≠ X) → preservesK X st0 stc →
      ∃ s, (L.foldl (bulkStep env fuel) (errors, stc)).1 = errors ++ s ∧
        preservesK X st0 (L.foldl (bulkStep env fuel) (errors, stc)).2 := by
  intro L
  induction L with
  | nil =>
    intro errors stc _ hpres
    exact ⟨"", by simp, hpres⟩
  | cons n L ih =>
    intro errors stc hL hpres
    have hnX : n ≠ X := hL n (List.mem_cons_self _ _)
    have hL' : ∀ m ∈ L, m ≠ X := fun m hm => hL m (List.mem_cons_of_mem _ hm)
    obtain ⟨s1, hs1, hp1⟩ := bulkStep_presK X env fuel stc errors n hnX hpres hnd
    rw [List.foldl_cons]
    cases hstep : bulkStep env fuel (errors, stc) n with
    | mk e1 st1 =>
      rw [hstep] at hs1 hp1
      obtain ⟨s2, hs2, hp2⟩ := ih e1 st1 hL' hp1
      refine ⟨s1 ++ s2, ?_, hp2⟩
      rw [hs2]
      show e1 ++ s2 = errors ++ (s1 ++ s2)
      rw [show e1 = errors ++ s1 from hs1, String.append_assoc]

theorem activate_flow_pres (X : String) (st : Manager) (n : String) :
    ExceptStateP (preservesK X st) (activate_flow st n) := by
  unfold activate_flow
  split
  · exact preservesK_refl X st
  · split
    · exact preservesK_refl X st
    · exact ⟨rfl, rfl, rfl, rfl, rfl⟩

theorem bulkFlowStep_eq (errors : String) (stc : Manager) (n : String) :
    bulkFlowStep (errors, stc) n = (match stc.flows.lookup n with
    | none => (errors, stc)
    | some activated =>
      if !activated then
        match activate_flow stc n with
        | .ok st2 => (errors, st2)
        | .error (e, st2) => (errors ++ flowErrorLine n (render e), st2)
      else (errors, stc)) := rfl

theorem bulkFlowStep_presK (X : String) {st0 : Manager} (stc : Manager)
    (errors : String) (n : String) (hpres : preservesK X st0 stc) :
    ∃ s, (bulkFlowStep (errors, stc) n).1 = errors ++ s ∧
      preservesK X st0 (bulkFlowStep (errors, stc) n).2 := by
  rw [bulkFlowStep_eq]
  split
  · exact ⟨"", by simp, hpres⟩
  · split
    · have hrun := activate_flow_pres X stc n
      split
      · rename_i st2 heq
        rw [heq] at hrun
        exact ⟨"", by simp, preservesK_trans hpres hrun⟩
      · rename_i e st2 heq
        rw [heq] at hrun
        exact ⟨flowErrorLine n (render e), rfl, preservesK_trans hpres hrun⟩
    · exact ⟨"", by simp, hpres⟩

theorem flowFold_presK (X : String) {st0 : Manager} :
    ∀ (L : List String) (errors : String) (stc : Manager),
      preservesK X st0 stc →
      ∃ s, (L.foldl bulkFlowStep (errors, stc)).1 = errors ++ s ∧
        preservesK X st0 (L.foldl bulkFlowStep (errors, stc)).2 := by
  intro L
  induction L with
  | nil =>
    intro errors stc hpres
    exact ⟨"", by simp, hpres⟩
  | cons n L ih =>
    intro errors stc hpres
    obtain ⟨s1, hs1, hp1⟩ := bulkFlowStep_presK X stc errors n hpres
    rw [List.foldl_cons]
    cases hstep : bulkFlowStep (errors, stc) n with
    | mk e1 st1 =>
      rw [hstep] at hs1 hp1
      obtain ⟨s2, hs2, hp2⟩ := ih e1 st1 hp1
      refine ⟨s1 ++ s2, ?_, hp2⟩
      rw [hs2]
      show e1 ++ s2 = errors ++ (s1 ++ s2)
      rw [show e1 = errors ++ s1 from hs1, String.append_assoc]

theorem bulkStep_blacklisted (env : Env) (fuel : Nat) (errors : String)
    (stc : Manager) (X : String) (p : BotPlugin)
    (hlp : lookupPlugin stc X = some p)
    (hbl : is_plugin_blacklisted stc X = true) :
    bulkStep env fuel (errors, stc) X =
      (errors ++ blacklistNotice p.name stc.botPfx X, stc) := by
  rw [bulkStep_eq, hlp]
  simp [hbl]

/-- C6: after `blacklist(X)` the bulk pass `activate_non_started_plugins`
never takes `X` as a direct activation target — on reaching `X` it appends
the blacklist notice to the report instead of calling `activate_plugin`,
and, provided no registered descriptor declares `X` as a dependency, `X`'s
activation state after the whole pass (plugin loop and flow loop) is
exactly what it was before; a direct `activate_plugin(X)` performs no
blacklist check at all and, when `X` is otherwise eligible (known
descriptor, passing gates, inactive tree-shaped dependency closure,
non-raising hooks), succeeds and leaves `X` activated.  The no-dependent
proviso is necessary: see the counterexample, where the bulk pass
activates a blacklisted `X` as a dependency of `Y`. -/
theorem c6_blacklist_bulk_vs_direct (env : Env) (fuel : Nat) (st : Manager)
    (X : String) (p : BotPlugin)
    (hbl : X ∈ st.blacklist)
    (hlp : lookupPlugin st X = some p)
    (hnodup : (pluginKeys st).Nodup)
    (hnd : ∀ e ∈ st.plugin_infos, X ∉ e.2.dependencies)
    (hwf : WFM st)
    (hnrB : ∀ e ∈ st.plugins, e.2.activateRaises = false ∧ e.2.routeRaises = false ∧
      e.2.connectRaises = false)
    (hfuel : (pluginKeys st).length < fuel)
    (hgates : gatesPassB env st X = true)
    (HU : UniquePathsFrom st.plugin_infos X)
    (ND : ∀ v, Reaches st.plugin_infos X v → (infoDeps st.plugin_infos v).Nodup)
    (hact : ∀ v, Reaches st.plugin_infos X v → isActive st v = false) :
    (isActive (activate_non_started_plugins env fuel st).2 X = isActive st X ∧
      ∃ a b, (activate_non_started_plugins env fuel st).1 =
        a ++ blacklistNotice p.name st.botPfx X ++ b) ∧
    ∃ st', activate_plugin env fuel st X = .ok st' ∧ isActive st' X = true := by
  have hmem : X ∈ pluginKeys st := lookupPlugin_isSome_iff.mp (by simp [hlp])
  constructor
  · obtain ⟨pre, post, hsplit⟩ := List.append_of_mem hmem
    rw [hsplit] at hnodup
    have hnd3 := List.nodup_append.mp hnodup
    have hXpre : X ∉ pre := fun hx => hnd3.2.2 hx (List.mem_cons_self _ _)
    have hpre : ∀ n ∈ pre, n ≠ X := fun n hn he => hXpre (he ▸ hn)
    have hpost : ∀ n ∈ post, n ≠ X := by
      intro n hn he
      exact (List.nodup_cons.mp hnd3.2.1).1 (he ▸ hn)
    unfold activate_non_started_plugins
    rw [hsplit, List.foldl_append, List.foldl_cons]
    obtain ⟨s1, hs1, hp1⟩ :=
      bulkFold_presK X env fuel hnd pre "" st hpre (preservesK_refl X st)
    cases hres1 : List.foldl (bulkStep env fuel) ("", st) pre with
    | mk e1 st1 =>
      rw [hres1] at hs1 hp1
      have hlp1 : lookupPlugin st1 X = some p := hp1.2.2.2.2.trans hlp
      have hbl1 : is_plugin_blacklisted st1 X = true := by
        unfold is_plugin_blacklisted
        rw [hp1.2.1]
        exact decide_eq_true hbl
      rw [bulkStep_blacklisted env fuel e1 st1 X p hlp1 hbl1, hp1.2.2.1]
      obtain ⟨s3, hs3, hp3⟩ := bulkFold_presK X env fuel hnd post
        (e1 ++ blacklistNotice p.name st.botPfx X) st1 hpost hp1
      cases hres3 : List.foldl (bulkStep env fuel)
          (e1 ++ blacklistNotice p.name st.botPfx X, st1) post with
      | mk e3 st3 =>
        rw [hres3] at hs3 hp3
        obtain ⟨s4, hs4, hp4⟩ :=
          flowFold_presK X (st.flows.map Prod.fst) e3 st3 hp3
        cases hres4 : List.foldl bulkFlowStep (e3, st3) (st.flows.map Prod.fst) with
        | mk e4 st4 =>
          rw [hres4] at hs4 hp4
          constructor
          · show isActive st4 X = isActive st X
            unfold isActive
            rw [hp4.2.2.2.2]
          · refine ⟨e1, s3 ++ s4, ?_⟩
            show e4 = e1 ++ blacklistNotice p.name st.botPfx X ++ (s3 ++ s4)
            have hs4' : e4 = e3 ++ s4 := hs4
            have hs3' : e3 = e1 ++ blacklistNotice p.name st.botPfx X ++ s3 := hs3
            rw [hs4', hs3', String.append_assoc]
  · obtain ⟨st', hok, hiff, -, -⟩ :=
      activate_plugin_tree_ok env fuel st X hwf hnrB hmem hfuel hgates HU ND hact
    exact ⟨st', hok, (hiff X).mpr (Or.inr Relation.ReflTransGen.refl)⟩

/-- Witness for C6 at `bulkFreeSt`: `X` is blacklisted, nothing depends on
it, `Y` is independent; the bulk pass leaves `X` as it was and reports the
notice, and a direct activation of `X` succeeds. -/
theorem c6_witness :
    (isActive (activate_non_started_plugins stdEnv 3 bulkFreeSt).2 "X" =
        isActive bulkFreeSt "X" ∧
      ∃ a b, (activate_non_started_plugins stdEnv 3 bulkFreeSt).1 =
        a ++ blacklistNotice (basePlugin "X").name bulkFreeSt.botPfx "X" ++ b) ∧
    ∃ st', activate_plugin stdEnv 3 bulkFreeSt "X" = .ok st' ∧
      isActive st' "X" = true :=
  c6_blacklist_bulk_vs_direct stdEnv 3 bulkFreeSt "X" (basePlugin "X")
    (by decide) rfl (by decide) (by decide) (by decide) (by decide) (by decide)
    (by decide)
    (uniquePaths_of_no_deps (by decide))
    (fun v hv => by rw [reaches_no_deps (by decide) hv]; decide)
    (fun v _ => allInactive_isActive (by decide) v)

/-- Counterexample for C6 as stated: in `bulkDepSt` the plugin `X` is
blacklisted and inactive, but the non-blacklisted `Y` declares a dependency
on it, so the bulk pass — while skipping `X` as a direct target — activates
`X` anyway through `_activate_plugin_dependencies` when it activates `Y`:
the blacklist does not prevent auto-activation as a dependency. -/
theorem c6_counterexample :
    "X" ∈ bulkDepSt.blacklist ∧
    isActive bulkDepSt "X" = false ∧
    isActive (activate_non_started_plugins stdEnv 3 bulkDepSt).2 "X" = true := by
  exact ⟨by decide, by decide, by decide⟩
